import Mathlib

/-!
Shallow embedding of `src/artifact_extractor.py` (ArtifactExtractor), a script
that extracts well-known Windows artifact files from a disk image and its
volume shadow copies, copying each found file into a destination tree,
deduplicating byte-identical copies per original location by MD5 hash, and
restoring the original timestamps on kept copies.

Modelling conventions:
* bytes are `Nat`; file contents are `List Nat`;
* the MD5 digest function is an arbitrary parameter `md5hex : List Nat → String`
  (the hashlib object is modelled by the list of bytes fed to it so far, and
  `hexdigest()` is `md5hex` of that accumulated list);
* POSIX timestamps are `ℚ` (`datetime.fromtimestamp` is treated as the identity
  on epoch values); `datetime.now()` is a parameter `now : ℚ`;
* the output filesystem and the `_extracted` dict are association lists keyed
  by strings; `os.path.join` is modelled with the separator `/` (the script
  itself runs with the platform separator, which does not affect the path
  structure);
* I/O errors (`IOError` raised while reading the source file object or writing
  the output file inside the `try:` block of `export_file`) are modelled by an
  oracle `err : String → Option IOPoint` giving, per output path, the point at
  which the error strikes; `os.makedirs`, `os.remove` and the win32 timestamp
  calls are modelled as infallible;
* exceptions are `Except`: `copyTryBlock` returns `.error st` when an IOError
  escapes the copy loop leaving state `st`, and `export_file` catches it
  (`except IOError: pass`).
-/

namespace ArtifactExtractor

/-- A byte of file content. -/
abbrev Byte := Nat

/-! ### Python string/path helpers -/

/-- Python `str.split(c)` on a list of characters: splits at every occurrence
of `c`, keeping empty pieces; the result is always nonempty. -/
def splitOnChar (c : Char) : List Char → List (List Char)
  | [] => [[]]
  | x :: xs =>
    match splitOnChar c xs with
    | [] => [[]]
    | p :: ps => if x = c then [] :: p :: ps else (x :: p) :: ps

/-- Python `s.split(c)` for a single-character separator. -/
def pySplit (s : String) (c : Char) : List String :=
  (splitOnChar c s.data).map (fun l => ⟨l⟩)

/-- Python `s.split('/')[-1]`: the last component of a `/`-separated path. -/
def lastComp (s : String) : String :=
  (pySplit s '/').getLastD ""

/-- `os.path.join` for two components (POSIX semantics, separator `/`):
an absolute second component discards the first; otherwise the separator is
inserted unless the first component is empty or already ends in `/`. -/
def pyJoin (a b : String) : String :=
  if b.data.head? = some '/' then b
  else if a.data = [] ∨ a.data.getLast? = some '/' then a ++ b
  else a ++ "/" ++ b

/-! ### Data model: stat objects, file entries -/

/-- The fields of a dfvfs stat object read by the script
(`stat_object.atime`, `.atime_nano`, `.crtime`, `.crtime_nano`, `.mtime`,
`.mtime_nano`, `.type`); absent values are `none`. -/
structure StatObject where
  atime : Option Int
  atime_nano : Option Nat
  crtime : Option Int
  crtime_nano : Option Nat
  mtime : Option Int
  mtime_nano : Option Nat
  ftype : Nat
deriving DecidableEq, Repr

/-- `dfvfs.lib.definitions.FILE_ENTRY_TYPE_DIRECTORY` (the concrete numeral is
immaterial; only equality with `StatObject.ftype` is used). -/
def FILE_ENTRY_TYPE_DIRECTORY : Nat := 2

/-- A dfvfs file entry as seen by the script: its `name`, its
`path_spec.location`, its stat object, the bytes of its default data stream
(`GetFileObject()` + `read`), and its `sub_file_entries`. -/
inductive FileEntry where
  | mk (name : String) (location : String) (stat : StatObject)
       (data : List Byte) (subs : List FileEntry)

/-- `file_entry.name`. -/
def FileEntry.name : FileEntry → String
  | .mk n _ _ _ _ => n

/-- `file_entry.path_spec.location`. -/
def FileEntry.location : FileEntry → String
  | .mk _ l _ _ _ => l

/-- `file_entry.GetStat()`. -/
def FileEntry.stat : FileEntry → StatObject
  | .mk _ _ s _ _ => s

/-- The bytes of `file_entry.GetFileObject()`. -/
def FileEntry.data : FileEntry → List Byte
  | .mk _ _ _ d _ => d

/-- `file_entry.sub_file_entries`. -/
def FileEntry.subs : FileEntry → List FileEntry
  | .mk _ _ _ _ s => s

/-! ### Buffered reading -/

/-- `ArtifactExtractor._READ_BUFFER_SIZE` (source line 25). -/
def READ_BUFFER_SIZE : Nat := 32768

/-- Chunking with an explicit iteration budget (structural recursion so that
the function evaluates by kernel reduction); the budget is always at least
the list length, so the middle branch is unreachable. -/
def readChunksGo : Nat → List Byte → List (List Byte)
  | _, [] => []
  | 0, _ => []
  | fuel + 1, l => l.take READ_BUFFER_SIZE :: readChunksGo fuel (l.drop READ_BUFFER_SIZE)

/-- The successive nonempty chunks returned by
`in_file.read(self._READ_BUFFER_SIZE)` until exhaustion
(the copy loop of `export_file`, source lines 130-134). -/
def readChunks (data : List Byte) : List (List Byte) :=
  readChunksGo data.length data

/-- Concatenation of a chunk list: the bytes fed to the md5 object /
written to the output file by the copy loop. -/
def joinChunks (chunks : List (List Byte)) : List Byte :=
  chunks.foldl (fun a c => a ++ c) []

/-! ### Association-list state -/

/-- Lookup in an association list keyed by strings (Python `d[k]` / `k in d`). -/
def alookup {β : Type} : List (String × β) → String → Option β
  | [], _ => none
  | (k, v) :: r, key => if k = key then some v else alookup r key

/-- Update/insert in an association list (Python `d[k] = v`). -/
def aset {β : Type} : List (String × β) → String → β → List (String × β)
  | [], key, v => [(key, v)]
  | (k, w) :: r, key, v => if k = key then (k, v) :: r else (k, w) :: aset r key v

/-- Removal from an association list (`os.remove` on the output filesystem). -/
def aremove {β : Type} : List (String × β) → String → List (String × β)
  | [], _ => []
  | (k, w) :: r, key => if k = key then aremove r key else (k, w) :: aremove r key

/-- A file of the output tree: the bytes written to it, the timestamps set on
it by `_preserve_timestamps` (if any), and — as bookkeeping for stating the
deduplication property — the `path_spec.location` of the source entry it was
copied from. -/
structure OutFile where
  data : List Byte
  times : Option (ℚ × ℚ × ℚ)
  origLoc : String
deriving DecidableEq, Repr

/-- The mutable state touched by `export_file`: the class-level `_extracted`
dict (original location → list of md5 hex digests, source line 72) and the
destination filesystem (output path → file). -/
structure ExtState where
  extracted : List (String × List String)
  outFS : List (String × OutFile)
deriving DecidableEq, Repr

/-! ### `_check_unique` (source lines 102-113) -/

/-- `ArtifactExtractor._check_unique(self, file_entry, md5)`: returns False if
`md5` is already recorded for `file_entry.path_spec.location` in `_extracted`,
otherwise records it (appending, or creating the entry) and returns True.
The returned state is the updated `_extracted` map. -/
def check_unique (st : ExtState) (file_entry : FileEntry) (md5 : String) :
    Bool × ExtState :=
  match alookup st.extracted file_entry.location with
  | some hashes =>
    if md5 ∈ hashes then (false, st)
    else (true, { st with extracted := aset st.extracted file_entry.location (hashes ++ [md5]) })
  | none => (true, { st with extracted := aset st.extracted file_entry.location [md5] })

/-! ### `_preserve_timestamps` (source lines 74-100) -/

/-- Python `float(str(s) + '.' + str(n))`: the seconds value with the decimal
digits of `n` appended after the decimal point (sign-aware, since `str(s)` of
a negative `s` carries the minus sign). -/
def concatTS (s : Int) (n : Nat) : ℚ :=
  let frac : ℚ := (n : ℚ) / ((10 : ℚ) ^ (toString n).length)
  if s < 0 then (s : ℚ) - frac else (s : ℚ) + frac

/-- One timestamp field of `_preserve_timestamps`: `now` when the stat object
does not report the value, otherwise the seconds value, refined by the nano
field via string concatenation when that is present. -/
def tsField (seconds : Option Int) (nano : Option Nat) (now : ℚ) : ℚ :=
  match seconds with
  | none => now
  | some s =>
    match nano with
    | none => (s : ℚ)
    | some n => concatTS s n

/-- The timestamp of the original file entry as reported by its stat object,
following the spec's words ("preserves original file timestamps on the
copies"): the seconds value refined by the nano field counting nanoseconds.
This is the reference value the timestamp-preservation claim compares the
copy's timestamps against; it is independent of the restore code above.
(Under the alternative reading of the nano field as a count of
100-nanosecond intervals, the divergence shown in the counterexample holds
as well.) -/
def statTimestamp (seconds : Int) (nano : Option Nat) : ℚ :=
  match nano with
  | none => (seconds : ℚ)
  | some n => (seconds : ℚ) + (n : ℚ) / 1000000000

/-- `ArtifactExtractor._preserve_timestamps(file_entry, output_path)`: the
triple `(created, accessed, modified)` passed to
`SetFileTime(handle, created, accessed, modified)`, where win32's
`SetFileTime(handle, CreationTime, LastAccessTime, LastWriteTime)` sets the
creation, access and write times in that order. -/
def preserve_timestamps (stat : StatObject) (now : ℚ) : ℚ × ℚ × ℚ :=
  let accessed := tsField stat.atime stat.atime_nano now
  let created := tsField stat.crtime stat.crtime_nano now
  let modified := tsField stat.mtime stat.mtime_nano now
  (created, accessed, modified)

/-! ### `export_file` (source lines 115-150) -/

/-- Where an `IOError` strikes inside the `try:` block of `export_file`, if at
all: `atOpen` = while obtaining the file object or opening the output file
(nothing written); `duringCopy k` = while reading/writing after `k` chunks
were written (a partial output file remains), where `k` at or beyond the chunk
count means the error strikes at a close call after the full copy. -/
inductive IOPoint where
  | atOpen
  | duringCopy (chunksWritten : Nat)
deriving DecidableEq, Repr

/-- Set the timestamps of an already-written output file
(the effect of `_preserve_timestamps(file_entry, output_path)`). -/
def setFileTimes (fs : List (String × OutFile)) (path : String) (t : ℚ × ℚ × ℚ) :
    List (String × OutFile) :=
  match alookup fs path with
  | some f => aset fs path { f with times := some t }
  | none => fs

/-- The `try:` block of `export_file` (source lines 126-144): open source and
output, copy in `_READ_BUFFER_SIZE` chunks feeding the md5 object, close, then
either remove the copy (`_check_unique` False) or restore its timestamps.
`.error st` means an `IOError` escaped the block leaving state `st`. -/
def copyTryBlock (md5hex : List Byte → String) (now : ℚ)
    (err : String → Option IOPoint) (file_entry : FileEntry)
    (output_path : String) (st : ExtState) : Except ExtState ExtState :=
  match err output_path with
  | some .atOpen => .error st
  | some (.duringCopy k) =>
    let partialFile := OutFile.mk (joinChunks ((readChunks file_entry.data).take k)) none file_entry.location
    .error { st with outFS := aset st.outFS output_path partialFile }
  | none =>
    let fed := joinChunks (readChunks file_entry.data)
    let st1 := { st with outFS := aset st.outFS output_path (OutFile.mk fed none file_entry.location) }
    let r := check_unique st1 file_entry (md5hex fed)
    if r.1 then
      .ok { r.2 with outFS := setFileTimes r.2.outFS output_path (preserve_timestamps file_entry.stat now) }
    else
      .ok { r.2 with outFS := aremove r.2.outFS output_path }

/-- `export_file` without the trailing recursion: the `try:` block with
`except IOError: pass` around it. -/
def export_file_once (md5hex : List Byte → String) (now : ℚ)
    (err : String → Option IOPoint) (file_entry : FileEntry)
    (output_path : String) (st : ExtState) : ExtState :=
  match copyTryBlock md5hex now err file_entry output_path st with
  | .ok st' => st'
  | .error st' => st'

/-- `ArtifactExtractor.export_file(self, file_entry, output_path, recursive)`:
the copy attempt, then — only when `recursive` — one pass over
`file_entry.sub_file_entries`, each exported with `recursive=False` into
`os.path.join(output_path, sub_file_entry.name)` (the recursion in the source
always passes `False`, so it is one level deep). -/
def export_file (md5hex : List Byte → String) (now : ℚ)
    (err : String → Option IOPoint) (file_entry : FileEntry)
    (output_path : String) (recursive : Bool) (st : ExtState) : ExtState :=
  let st1 := export_file_once md5hex now err file_entry output_path st
  if recursive then
    file_entry.subs.foldl
      (fun s sub => export_file_once md5hex now err sub (pyJoin output_path sub.name) s) st1
  else st1

/-- One `export_file` call of a sequence. -/
structure ExportCall where
  entry : FileEntry
  path : String
  recursive : Bool

/-- A sequence of `export_file` calls run against shared state. -/
def runExports (md5hex : List Byte → String) (now : ℚ)
    (err : String → Option IOPoint) (calls : List ExportCall) (st : ExtState) : ExtState :=
  calls.foldl (fun s c => export_file md5hex now err c.entry c.path c.recursive s) st

/-! ### Base path specifications and the reordering loop
(`extract_artifacts`, source lines 174-178) -/

/-- A dfvfs base path specification as read by the script: its (mutable)
`location`, its `parent.type_indicator` and its `parent.store_index`. -/
structure BasePathSpec where
  location : String
  parent_type_indicator : String
  parent_store_index : Nat
deriving DecidableEq, Repr

/-- One step of the loop
`for base_path_spec in base_path_specs: if ... != 'VSHADOW': insert(0, pop(index(...)))`:
Python's `for` iterates by position over the list being mutated, so step `i`
reads the current element at position `i`; if its parent is not a shadow copy
it is popped at its (first) index and re-inserted at the front. -/
def moveStep (l : List BasePathSpec) (i : Nat) : List BasePathSpec :=
  match l[i]? with
  | none => l
  | some x =>
    if x.parent_type_indicator ≠ "VSHADOW" then x :: l.eraseIdx (l.indexOf x) else l

/-- The reordering loop, iterated by position with the remaining iteration
budget as fuel (each step preserves the length, so `l.length` steps exhaust
the iterator exactly as in Python). -/
def reorderGo : List BasePathSpec → Nat → Nat → List BasePathSpec
  | l, _, 0 => l
  | l, i, fuel + 1 => if i < l.length then reorderGo (moveStep l i) (i + 1) fuel else l

/-- The reordering of `base_path_specs` performed at the start of
`extract_artifacts` (source lines 176-178). -/
def reorder (l : List BasePathSpec) : List BasePathSpec :=
  reorderGo l 0 l.length

/-! ### The artifact catalogue (source lines 26-71) -/

/-- One artifact of the catalogue: source location and output category. -/
structure Artifact where
  loc : String
  out : String
deriving DecidableEq, Repr

/-- `_LOC_REG`. -/
def LOC_REG : String := "/Windows/System32/config/"

/-- `_LOC_WINEVT`. -/
def LOC_WINEVT : String := "/Windows/System32/winevt/logs/"

/-- `_LOC_APPCOMPAT`. -/
def LOC_APPCOMPAT : String := "/Windows/AppCompat/Programs/"

/-- `_LOC_RECENT`. -/
def LOC_RECENT : String := "/AppData/Roaming/Microsoft/Windows/Recent/"

/-- `_SYSTEM_ARTIFACTS`. -/
def SYSTEM_ARTIFACTS : List Artifact := [
  ⟨LOC_REG ++ "SAM", "/Registry/"⟩,
  ⟨LOC_REG ++ "SECURITY", "/Registry/"⟩,
  ⟨LOC_REG ++ "SOFTWARE", "/Registry/"⟩,
  ⟨LOC_REG ++ "SYSTEM", "/Registry/"⟩,
  ⟨LOC_REG ++ "RegBack/SAM", "/Registry/RegBack/"⟩,
  ⟨LOC_REG ++ "RegBack/SECURITY", "/Registry/RegBack/"⟩,
  ⟨LOC_REG ++ "RegBack/SOFTWARE", "/Registry/RegBack/"⟩,
  ⟨LOC_REG ++ "RegBack/SYSTEM", "/Registry/RegBack/"⟩,
  ⟨LOC_WINEVT ++ "Application.evtx", "/OSLogs/"⟩,
  ⟨LOC_WINEVT ++ "Security.evtx", "/OSLogs/"⟩,
  ⟨LOC_WINEVT ++ "Setup.evtx", "/OSLogs/"⟩,
  ⟨LOC_WINEVT ++ "System.evtx", "/OSLogs/"⟩,
  ⟨LOC_WINEVT ++ "Microsoft-Windows-DriverFrameworks-UserMode-Operational.evtx", "/OSLogs/"⟩,
  ⟨LOC_WINEVT ++ "Microsoft-Windows-PowerShell%4Operational.evtx", "/OSLogs/"⟩,
  ⟨LOC_WINEVT ++ "Microsoft-Windows-TaskScheduler%4Operational.evtx", "/OSLogs/"⟩,
  ⟨LOC_WINEVT ++ "Microsoft-Windows-TerminalServices-RemoteConnectionManager%4Operational.evtx", "/OSLogs/"⟩,
  ⟨LOC_WINEVT ++ "Microsoft-Windows-TerminalServices-LocalSessionManager%4Operational.evtx", "/OSLogs/"⟩,
  ⟨LOC_WINEVT ++ "Microsoft-Windows-Windows Firewall With Advanced Security%4Firewall.evtx", "/OSLogs/"⟩,
  ⟨LOC_APPCOMPAT ++ "Amcache.hve", "/MRU/Prog/"⟩,
  ⟨LOC_APPCOMPAT ++ "Programs/RecentFileCache.bcf", "/MRU/Prog/"⟩,
  ⟨"/Windows/Inf/setupapi.dev.log", "/Registry/"⟩]

/-- `_SYSTEM_ARTIFACTS_DIR`. -/
def SYSTEM_ARTIFACTS_DIR : List Artifact := [
  ⟨"/Windows/Prefetch", "/MRU/Prog/prefetch/"⟩,
  ⟨"/Windows/System32/sru", "/MRU/Prog/srum/"⟩,
  ⟨"/Windows/System32/wbem/Repository", "/MRU/Prog/sccm/"⟩]

/-- `_USER_ARTIFACTS`. -/
def USER_ARTIFACTS : List Artifact := [
  ⟨"/NTUSER.DAT", "/Registry/"⟩,
  ⟨"/AppData/Local/Microsoft/Windows/UsrClass.dat", "/Registry/"⟩]

/-- `_USER_ARTIFACTS_DIR`. -/
def USER_ARTIFACTS_DIR : List Artifact := [
  ⟨LOC_RECENT, "/MRU/Files/lnk/"⟩,
  ⟨LOC_RECENT ++ "AutomaticDestinations", "/MRU/Files/jmp/"⟩,
  ⟨LOC_RECENT ++ "CustomDestinations", "/MRU/Files/jmp/"⟩,
  ⟨"/AppData/Local/Microsoft/Windows/WebCache", "/MRU/Files/webcache/"⟩]

/-- The profile folder names excluded from user-artifact extraction
(source line 228). -/
def EXCLUDED_PROFILES : List String :=
  ["All Users", "Default", "Default User", "Default.migrated", "Public"]

/-- The output categories of the artifact catalogue (the distinct second
components of the four artifact lists). -/
def ALL_CATEGORIES : List String :=
  ["/Registry/", "/Registry/RegBack/", "/OSLogs/", "/MRU/Prog/",
   "/MRU/Prog/prefetch/", "/MRU/Prog/srum/", "/MRU/Prog/sccm/",
   "/MRU/Files/lnk/", "/MRU/Files/jmp/", "/MRU/Files/webcache/"]

/-! ### `_get_file_entry`, `_get_output_path`, `_get_vsc_ctime`
(source lines 152-172) -/

/-- `ArtifactExtractor._get_file_entry(base_path_spec, artifact_location)`:
sets `base_path_spec.location` IN PLACE to `artifact_location` (the local
`path_spec` is an alias of the caller's object) and resolves it. The second
component of the result is the caller's object after the call. -/
def get_file_entry (resolve : BasePathSpec → Option FileEntry)
    (base_path_spec : BasePathSpec) (artifact_location : String) :
    Option FileEntry × BasePathSpec :=
  let path_spec := { base_path_spec with location := artifact_location }
  (resolve path_spec, path_spec)

/-- `ArtifactExtractor._get_output_path(output_base_dir, artifact_output_path)`:
split the artifact output path on `/` and `os.path.join` the pieces onto the
output base directory. -/
def get_output_path (output_base_dir : String) (artifact_output_path : String) : String :=
  (pySplit artifact_output_path '/').foldl pyJoin output_base_dir

/-- `ArtifactExtractor._get_vsc_ctime(base_path_spec)`: the creation timestamp
string of the snapshot, looked up in the external
`vsm.VSS_CREATION_TIMESTAMPS` table (a parameter of the model) at
`store_index + 1`. -/
def get_vsc_ctime (vssCtimes : Nat → String) (base_path_spec : BasePathSpec) : String :=
  vssCtimes (base_path_spec.parent_store_index + 1)

/-- Python `s.replace(c, r)` for a single-character pattern `c`: every
occurrence of `c` is replaced by `r` (the two calls in the source use the
one-character patterns `':'` and `' '`). -/
def replaceChar (s : String) (c : Char) (r : String) : String :=
  ⟨s.data.flatMap (fun ch => if ch = c then r.data else [ch])⟩

/-- The shadow-copy subfolder name (source line 194):
the creation timestamp with `:` removed and spaces replaced by `@`. -/
def vscDirOf (vssCtimes : Nat → String) (base_path_spec : BasePathSpec) : String :=
  replaceChar (replaceChar (get_vsc_ctime vssCtimes base_path_spec) ':' "") ' ' "@"

/-! ### `extract_artifacts` as a trace of calls (source lines 174-255)

The per-spec processing is rendered as the list of `logging.warning` calls and
`export_file` calls it performs, in order. The location mutation performed by
`_get_file_entry` on the shared `base_path_spec` object (see `get_file_entry`)
is overwritten by the next call before any other use, so the loops below apply
`get_file_entry` to the spec with only its immutable fields relevant. -/

/-- The provenance of an `export_file` call: which catalogue loop issued it
(for the user loops, the profile folder name). -/
inductive Source where
  | system
  | systemDir
  | user (dirName : String)
  | userDir (dirName : String)
deriving DecidableEq, Repr

/-- An observable action of `extract_artifacts`: the warning logged for an
unopenable base path specification (source line 188), or a call
`export_file(file_entry, output_path, recursive)` for the file entry resolved
at `location`. -/
inductive Event where
  | warnBase (spec : BasePathSpec)
  | exportCall (src : Source) (location : String) (output_path : String) (recursive : Bool)
deriving DecidableEq, Repr

/-- Whether an event is the warning logged for an unopenable base path
specification (`logging.warning`, source line 188) rather than an
`export_file` call. -/
def Event.isWarn : Event → Bool
  | .warnBase _ => true
  | .exportCall _ _ _ _ => false

/-- The `_SYSTEM_ARTIFACTS` loop (source lines 198-208). -/
def sysFileEvents (resolve : BasePathSpec → Option FileEntry) (dest : String)
    (spec : BasePathSpec) (vsc_dir : String) (arts : List Artifact) : List Event :=
  arts.flatMap (fun a =>
    match (get_file_entry resolve spec a.loc).1 with
    | none => []
    | some _ =>
      let output_path := get_output_path dest a.out
      if spec.parent_type_indicator = "VSHADOW" then
        [.exportCall .system a.loc (pyJoin (pyJoin output_path vsc_dir) (lastComp a.loc)) false]
      else
        [.exportCall .system a.loc (pyJoin output_path (lastComp a.loc)) false])

/-- The `_SYSTEM_ARTIFACTS_DIR` loop (source lines 210-219). -/
def sysDirEvents (resolve : BasePathSpec → Option FileEntry) (dest : String)
    (spec : BasePathSpec) (vsc_dir : String) (arts : List Artifact) : List Event :=
  arts.flatMap (fun a =>
    match (get_file_entry resolve spec a.loc).1 with
    | none => []
    | some _ =>
      let output_path := get_output_path dest a.out
      if spec.parent_type_indicator = "VSHADOW" then
        [.exportCall .systemDir a.loc (pyJoin output_path vsc_dir) true]
      else
        [.exportCall .systemDir a.loc output_path true])

/-- The `_USER_ARTIFACTS` loop for one profile folder (source lines 230-243). -/
def userFileEvents (resolve : BasePathSpec → Option FileEntry) (dest : String)
    (spec : BasePathSpec) (vsc_dir : String) (dir_name : String) (user_loc : String)
    (arts : List Artifact) : List Event :=
  arts.flatMap (fun a =>
    let artifact_location := user_loc ++ a.loc
    match (get_file_entry resolve spec artifact_location).1 with
    | none => []
    | some _ =>
      let output_path := get_output_path dest a.out
      if spec.parent_type_indicator = "VSHADOW" then
        [.exportCall (.user dir_name) artifact_location
          (pyJoin (pyJoin (pyJoin (pyJoin output_path vsc_dir) "Users") dir_name) (lastComp a.loc)) false]
      else
        [.exportCall (.user dir_name) artifact_location
          (pyJoin (pyJoin (pyJoin output_path "Users") dir_name) (lastComp a.loc)) false])

/-- The `_USER_ARTIFACTS_DIR` loop for one profile folder
(source lines 245-255). -/
def userDirEvents (resolve : BasePathSpec → Option FileEntry) (dest : String)
    (spec : BasePathSpec) (vsc_dir : String) (dir_name : String) (user_loc : String)
    (arts : List Artifact) : List Event :=
  arts.flatMap (fun a =>
    let artifact_location := user_loc ++ a.loc
    match (get_file_entry resolve spec artifact_location).1 with
    | none => []
    | some _ =>
      let output_path := pyJoin (get_output_path dest a.out) dir_name
      if spec.parent_type_indicator = "VSHADOW" then
        [.exportCall (.userDir dir_name) artifact_location (pyJoin output_path vsc_dir) true]
      else
        [.exportCall (.userDir dir_name) artifact_location output_path true])

/-- The `/Users` part of `extract_artifacts` (source lines 221-255): resolve
`/Users`; for each sub-entry that is a directory whose folder name is not an
excluded profile, run the two user-artifact loops. -/
def usersEvents (resolve : BasePathSpec → Option FileEntry) (dest : String)
    (spec : BasePathSpec) (vsc_dir : String) : List Event :=
  match (get_file_entry resolve spec "/Users").1 with
  | none => []
  | some users =>
    users.subs.flatMap (fun u =>
      if u.stat.ftype = FILE_ENTRY_TYPE_DIRECTORY then
        let dir_name := lastComp u.location
        if dir_name ∈ EXCLUDED_PROFILES then []
        else
          userFileEvents resolve dest spec vsc_dir dir_name u.location USER_ARTIFACTS ++
            userDirEvents resolve dest spec vsc_dir dir_name u.location USER_ARTIFACTS_DIR
      else [])

/-- Processing of one base path specification by `extract_artifacts`
(source lines 181-255): if it cannot be opened, log a warning and move on;
otherwise compute the shadow-copy subfolder name and run the catalogue
loops. -/
def processSpec (resolve : BasePathSpec → Option FileEntry) (vssCtimes : Nat → String)
    (dest : String) (spec : BasePathSpec) : List Event :=
  match resolve spec with
  | none => [.warnBase spec]
  | some _ =>
    let vsc_dir :=
      if spec.parent_type_indicator = "VSHADOW" then vscDirOf vssCtimes spec else ""
    sysFileEvents resolve dest spec vsc_dir SYSTEM_ARTIFACTS ++
      sysDirEvents resolve dest spec vsc_dir SYSTEM_ARTIFACTS_DIR ++
      usersEvents resolve dest spec vsc_dir

/-- `ArtifactExtractor.extract_artifacts(base_path_specs, output_base_dir)` as
the trace of its warnings and `export_file` calls: the reordering loop, then
each base path specification in order. -/
def extract_artifacts (resolve : BasePathSpec → Option FileEntry)
    (vssCtimes : Nat → String) (base_path_specs : List BasePathSpec)
    (output_base_dir : String) : List Event :=
  (reorder base_path_specs).flatMap (processSpec resolve vssCtimes output_base_dir)

/-! ### `main` and the process exit code (source lines 258-313) -/

/-- Python truthiness of an optional string argument (absent and empty are
falsy). -/
def truthy : Option String → Bool
  | none => false
  | some s => s ≠ ""

/-- Outcome of `GetBasePathSpecs(options.source)` inside the `try:` block:
either a `KeyboardInterrupt` strikes, or it returns a list that is empty or
not. -/
inductive ScanOutcome where
  | interrupt
  | specs (nonEmpty : Bool)
deriving DecidableEq, Repr

/-- Outcome of `extract_artifacts` inside the `try:` block: either a
`KeyboardInterrupt` strikes, or it completes. -/
inductive ExtractOutcome where
  | interrupt
  | completed
deriving DecidableEq, Repr

/-- `main()` (source lines 258-306): False on missing arguments; inside
`try/except KeyboardInterrupt`: False when no supported filesystem is found
or the destination directory does not exist; False when interrupted; True
otherwise. -/
def mainResult (source dest : Option String) (scan : ScanOutcome)
    (destExists : Bool) (ext : ExtractOutcome) : Bool :=
  if ¬ truthy source ∨ ¬ truthy dest then false
  else
    match scan with
    | .interrupt => false
    | .specs nonEmpty =>
      if ¬ nonEmpty then false
      else if destExists then
        match ext with
        | .interrupt => false
        | .completed => true
      else false

/-- The `__main__` guard (source lines 309-313): `sys.exit(1)` when `main()`
returns False, `sys.exit(0)` otherwise. -/
def programExit (source dest : Option String) (scan : ScanOutcome)
    (destExists : Bool) (ext : ExtractOutcome) : Nat :=
  if ¬ mainResult source dest scan destExists ext then 1 else 0

/-! ### Properties asserted by the claims -/

/-- Every kept copy's hash is recorded in `_extracted` for the original
location it was copied from. -/
def KeptHashesRecorded (md5hex : List Byte → String) (st : ExtState) : Prop :=
  ∀ pf ∈ st.outFS, md5hex pf.2.data ∈ (alookup st.extracted pf.2.origLoc).getD []

/-- No two kept copies with identical hash exist for the same original
location (the invariant asserted by the claim). -/
def NoDupKept (md5hex : List Byte → String) (st : ExtState) : Prop :=
  ∀ pf ∈ st.outFS, ∀ qg ∈ st.outFS, pf.1 ≠ qg.1 → pf.2.origLoc = qg.2.origLoc →
    md5hex pf.2.data ≠ md5hex qg.2.data

/-- The deduplication invariant together with the bookkeeping fact that makes
it inductive. -/
def GoodState (md5hex : List Byte → String) (st : ExtState) : Prop :=
  KeptHashesRecorded md5hex st ∧ NoDupKept md5hex st

/-- The ordering relation asserted by the claim: once a shadow-copy
specification appears, everything after it is a shadow-copy specification. -/
def VscAfter (a b : BasePathSpec) : Prop :=
  a.parent_type_indicator = "VSHADOW" → b.parent_type_indicator = "VSHADOW"

/-! ### Helper lemmas about the association-list state and chunking -/

theorem alookup_aset_self {β : Type} (m : List (String × β)) (k : String) (v : β) :
    alookup (aset m k v) k = some v := by
  induction m with
  | nil => simp [aset, alookup]
  | cons p r ih =>
    obtain ⟨k', w⟩ := p
    by_cases h : k' = k <;> simp [aset, alookup, h, ih]

theorem alookup_aset_ne {β : Type} (m : List (String × β)) (k k' : String) (v : β)
    (h : k' ≠ k) : alookup (aset m k v) k' = alookup m k' := by
  have hne : ¬ k = k' := fun hh => h hh.symm
  induction m with
  | nil => simp [aset, alookup, hne]
  | cons p r ih =>
    obtain ⟨k'', w⟩ := p
    by_cases h2 : k'' = k
    · subst h2
      simp [aset, alookup, hne]
    · simp only [aset, if_neg h2]
      by_cases h3 : k'' = k' <;> simp [alookup, h3, ih]

theorem mem_of_mem_aset {β : Type} {m : List (String × β)} {k : String} {v : β}
    {pf : String × β} (h : pf ∈ aset m k v) : pf = (k, v) ∨ pf ∈ m := by
  induction m with
  | nil => simpa [aset] using h
  | cons p r ih =>
    obtain ⟨k', w⟩ := p
    by_cases h2 : k' = k
    · subst h2
      rw [aset, if_pos rfl] at h
      rcases List.mem_cons.mp h with h3 | h3
      · exact Or.inl h3
      · exact Or.inr (List.mem_cons_of_mem _ h3)
    · rw [aset, if_neg h2] at h
      rcases List.mem_cons.mp h with h3 | h3
      · exact Or.inr (by simp [h3])
      · rcases ih h3 with h4 | h4
        · exact Or.inl h4
        · exact Or.inr (List.mem_cons_of_mem _ h4)

theorem mem_aremove_iff {β : Type} (m : List (String × β)) (k : String)
    (pf : String × β) : pf ∈ aremove m k ↔ pf ∈ m ∧ pf.1 ≠ k := by
  induction m with
  | nil => simp [aremove]
  | cons p r ih =>
    obtain ⟨k', w⟩ := p
    by_cases h : k' = k
    · subst h
      rw [aremove, if_pos rfl, ih]
      simp only [List.mem_cons]
      constructor
      · rintro ⟨h1, h2⟩
        exact ⟨Or.inr h1, h2⟩
      · rintro ⟨h1 | h1, h2⟩
        · exact absurd (congrArg Prod.fst h1) h2
        · exact ⟨h1, h2⟩
    · rw [aremove, if_neg h]
      simp only [List.mem_cons, ih]
      constructor
      · rintro (h1 | ⟨h1, h2⟩)
        · refine ⟨Or.inl h1, ?_⟩
          rw [h1]
          exact h
        · exact ⟨Or.inr h1, h2⟩
      · rintro ⟨h1 | h1, h2⟩
        · exact Or.inl h1
        · exact Or.inr ⟨h1, h2⟩

theorem alookup_aremove_self {β : Type} (m : List (String × β)) (k : String) :
    alookup (aremove m k) k = none := by
  induction m with
  | nil => simp [aremove, alookup]
  | cons p r ih =>
    obtain ⟨k', w⟩ := p
    by_cases h : k' = k <;> simp [aremove, alookup, h, ih]

theorem alookup_mem {β : Type} {m : List (String × β)} {k : String} {v : β}
    (h : alookup m k = some v) : (k, v) ∈ m := by
  induction m with
  | nil => simp [alookup] at h
  | cons p r ih =>
    obtain ⟨k', w⟩ := p
    by_cases h2 : k' = k
    · subst h2
      rw [alookup, if_pos rfl] at h
      injection h with h
      rw [← h]
      exact List.mem_cons_self _ _
    · rw [alookup, if_neg h2] at h
      exact List.mem_cons_of_mem _ (ih h)

theorem joinChunks_append (chunks : List (List Byte)) (a : List Byte) :
    chunks.foldl (fun x c => x ++ c) a = a ++ chunks.foldl (fun x c => x ++ c) [] := by
  induction chunks generalizing a with
  | nil => simp
  | cons c cs ih =>
    simp only [List.foldl_cons, List.nil_append]
    rw [ih (a ++ c), ih c, List.append_assoc]

theorem readChunksGo_fuel : ∀ (f1 : Nat) (l : List Byte) (f2 : Nat),
    l.length ≤ f1 → l.length ≤ f2 → readChunksGo f1 l = readChunksGo f2 l := by
  intro f1
  induction f1 with
  | zero =>
    intro l f2 h1 h2
    have hl : l = [] := List.eq_nil_of_length_eq_zero (Nat.le_zero.mp h1)
    subst hl
    cases f2 <;> simp [readChunksGo]
  | succ g ih =>
    intro l f2 h1 h2
    cases l with
    | nil => cases f2 <;> simp [readChunksGo]
    | cons x xs =>
      cases f2 with
      | zero => simp at h2
      | succ g2 =>
        simp only [readChunksGo]
        congr 1
        apply ih
        · simp only [READ_BUFFER_SIZE, List.length_drop, List.length_cons]
          simp only [List.length_cons] at h1
          omega
        · simp only [READ_BUFFER_SIZE, List.length_drop, List.length_cons]
          simp only [List.length_cons] at h2
          omega

/-- The defining recurrence of `readChunks`. -/
theorem readChunks_eq (l : List Byte) :
    readChunks l =
      if l = [] then [] else l.take READ_BUFFER_SIZE :: readChunks (l.drop READ_BUFFER_SIZE) := by
  cases l with
  | nil => simp [readChunks, readChunksGo]
  | cons x xs =>
    simp only [readChunks, List.length_cons, readChunksGo, if_neg (List.cons_ne_nil x xs)]
    congr 1
    apply readChunksGo_fuel
    · simp only [READ_BUFFER_SIZE, List.length_drop, List.length_cons]
      omega
    · exact Nat.le_refl _

/-- The copy loop of `export_file` writes back exactly the source bytes: the
concatenation of the chunks read by `in_file.read(32768)` until exhaustion is
the original byte list. -/
theorem joinChunks_readChunks (l : List Byte) : joinChunks (readChunks l) = l := by
  generalize hn : l.length = n
  induction n using Nat.strong_induction_on generalizing l with
  | _ n ih =>
    rw [readChunks_eq]
    split
    next hnil => simp [joinChunks, hnil]
    next hnil =>
      have hlen : (l.drop READ_BUFFER_SIZE).length < n := by
        subst hn
        have h0 : 0 < l.length := List.length_pos.mpr hnil
        simp only [List.length_drop, READ_BUFFER_SIZE]
        omega
      have ihd := ih _ hlen (l.drop READ_BUFFER_SIZE) rfl
      simp only [joinChunks, List.foldl_cons, List.nil_append] at *
      rw [joinChunks_append, ihd, List.take_append_drop]

/-- `export_file_once` on an error-free path, spelled out: write the full
content, check uniqueness, then restore timestamps or remove. -/
theorem export_file_once_ok (md5hex : List Byte → String) (now : ℚ)
    (err : String → Option IOPoint) (e : FileEntry) (path : String) (st : ExtState)
    (herr : err path = none) :
    export_file_once md5hex now err e path st =
      (let st1 : ExtState :=
        { st with outFS := aset st.outFS path (OutFile.mk e.data none e.location) }
       let r := check_unique st1 e (md5hex e.data)
       if r.1 then
         { r.2 with outFS := setFileTimes r.2.outFS path (preserve_timestamps e.stat now) }
       else
         { r.2 with outFS := aremove r.2.outFS path }) := by
  unfold export_file_once copyTryBlock
  rw [herr, joinChunks_readChunks]
  simp only []
  split
  next st' heq =>
    split at heq <;> simp_all
  next st' heq =>
    split at heq <;> simp_all

theorem check_unique_eq_new (st : ExtState) (e : FileEntry) (h : String)
    (hnew : h ∉ (alookup st.extracted e.location).getD []) :
    check_unique st e h =
      (true, { st with extracted := aset st.extracted e.location ((alookup st.extracted e.location).getD [] ++ [h]) }) := by
  unfold check_unique
  rcases hl : alookup st.extracted e.location with _ | hs
  · simp [hl]
  · rw [hl] at hnew
    simp only [Option.getD_some] at hnew
    simp [hl, hnew]

theorem check_unique_eq_dup (st : ExtState) (e : FileEntry) (h : String)
    (hdup : h ∈ (alookup st.extracted e.location).getD []) :
    check_unique st e h = (false, st) := by
  unfold check_unique
  rcases hl : alookup st.extracted e.location with _ | hs
  · rw [hl] at hdup
    simp at hdup
  · rw [hl] at hdup
    simp only [Option.getD_some] at hdup
    simp [hl, hdup]

/-- Closed form of an error-free `export_file` copy whose hash is new for the
original location: the hash is appended to `_extracted` and the copy is kept
with its timestamps restored. -/
theorem export_file_once_unique (md5hex : List Byte → String) (now : ℚ)
    (err : String → Option IOPoint) (e : FileEntry) (path : String) (st : ExtState)
    (herr : err path = none)
    (hnew : md5hex e.data ∉ (alookup st.extracted e.location).getD []) :
    export_file_once md5hex now err e path st =
      { extracted := aset st.extracted e.location
          ((alookup st.extracted e.location).getD [] ++ [md5hex e.data]),
        outFS := aset (aset st.outFS path (OutFile.mk e.data none e.location)) path
          (OutFile.mk e.data (some (preserve_timestamps e.stat now)) e.location) } := by
  rw [export_file_once_ok md5hex now err e path st herr]
  simp only []
  rw [check_unique_eq_new { st with outFS := aset st.outFS path (OutFile.mk e.data none e.location) }
    e (md5hex e.data) hnew]
  simp [setFileTimes, alookup_aset_self]

/-- Closed form of an error-free `export_file` copy whose hash is already
recorded for the original location: `_extracted` is unchanged and the
just-written copy is removed. -/
theorem export_file_once_dup (md5hex : List Byte → String) (now : ℚ)
    (err : String → Option IOPoint) (e : FileEntry) (path : String) (st : ExtState)
    (herr : err path = none)
    (hdup : md5hex e.data ∈ (alookup st.extracted e.location).getD []) :
    export_file_once md5hex now err e path st =
      { extracted := st.extracted,
        outFS := aremove (aset st.outFS path (OutFile.mk e.data none e.location)) path } := by
  rw [export_file_once_ok md5hex now err e path st herr]
  simp only []
  rw [check_unique_eq_dup { st with outFS := aset st.outFS path (OutFile.mk e.data none e.location) }
    e (md5hex e.data) hdup]
  simp

/-! ### C9: `_get_file_entry` mutates the caller's base path specification -/

/-- C9: `_get_file_entry` does not leave its argument unchanged: every call
sets the `location` field of the passed `base_path_spec` object in place to
the requested artifact location, so afterwards the caller's object refers to
that location (and, whenever the requested location differs from the current
one, the object really changed). -/
theorem get_file_entry_mutates_location
    (resolve : BasePathSpec → Option FileEntry) (spec : BasePathSpec)
    (loc : String) (hne : spec.location ≠ loc) :
    (get_file_entry resolve spec loc).2.location = loc ∧
    (get_file_entry resolve spec loc).2 ≠ spec := by
  refine ⟨rfl, fun h => hne ?_⟩
  have := congrArg BasePathSpec.location h
  exact this.symm

/-- Witness for C9 at a concrete input: the volume-root specification passed
to `_get_file_entry` with the `/Users` location is mutated to `/Users`. -/
theorem get_file_entry_mutates_location_witness :
    ((⟨"/", "TSK", 0⟩ : BasePathSpec).location ≠ "/Users") ∧
    ((get_file_entry (fun _ => none) ⟨"/", "TSK", 0⟩ "/Users").2.location = "/Users" ∧
     (get_file_entry (fun _ => none) ⟨"/", "TSK", 0⟩ "/Users").2 ≠ ⟨"/", "TSK", 0⟩) :=
  ⟨by decide, get_file_entry_mutates_location (fun _ => none) ⟨"/", "TSK", 0⟩ "/Users" (by decide)⟩

/-! ### C2: process exit codes -/

/-- C2: the process exit code is 0 exactly when extraction completes
successfully (both arguments given and truthy, a supported filesystem found,
the destination directory exists, no interrupt), and is 1 in every failure
case: missing source or destination argument, no supported filesystem in the
source, missing destination directory, or a keyboard interrupt. -/
theorem main_exit_codes (source dest : Option String) (scan : ScanOutcome)
    (destExists : Bool) (ext : ExtractOutcome) :
    (programExit source dest scan destExists ext = 0 ∨
       programExit source dest scan destExists ext = 1) ∧
    (programExit source dest scan destExists ext = 0 ↔
      (truthy source = true ∧ truthy dest = true ∧ scan = .specs true ∧
        destExists = true ∧ ext = .completed)) := by
  unfold programExit mainResult
  cases hs : truthy source <;> cases hd : truthy dest <;>
    cases scan <;> cases destExists <;> cases ext <;> simp_all

/-! ### C4: I/O errors during the copy are swallowed -/

/-- C4: for every `export_file` call in which reading the source file or
writing the output file raises an I/O error, the error is swallowed: the
`try:` block raises, `export_file` catches it and returns normally with the
state left by the interrupted copy, and a sequence of `export_file` calls
containing the failing one still runs every later call; the process is never
terminated by such an error. -/
theorem export_file_swallows_io_errors (md5hex : List Byte → String) (now : ℚ)
    (err : String → Option IOPoint) (e : FileEntry) (path : String) (st : ExtState)
    (hioerr : (err path).isSome = true) :
    (∃ st', copyTryBlock md5hex now err e path st = .error st' ∧
      export_file_once md5hex now err e path st = st') ∧
    (∀ (c : ExportCall) (rest : List ExportCall) (st0 : ExtState),
      runExports md5hex now err (c :: rest) st0 =
        runExports md5hex now err rest (export_file md5hex now err c.entry c.path c.recursive st0)) := by
  constructor
  · rcases hp : err path with _ | p
    · rw [hp] at hioerr
      simp at hioerr
    · cases p with
      | atOpen =>
        exact ⟨st, by simp [copyTryBlock, hp], by simp [export_file_once, copyTryBlock, hp]⟩
      | duringCopy k =>
        refine ⟨{ st with outFS := aset st.outFS path (OutFile.mk (joinChunks ((readChunks e.data).take k)) none e.location) }, ?_, ?_⟩
        · simp [copyTryBlock, hp]
        · simp [export_file_once, copyTryBlock, hp]
  · intro c rest st0
    rfl

/-- Witness for C4 at a concrete input: an `IOError` at open is swallowed and
the state is left unchanged. -/
theorem export_file_swallows_io_errors_witness :
    (((fun _ : String => some IOPoint.atOpen) "p").isSome = true) ∧
    ((∃ st', copyTryBlock (fun l => toString l) 0 (fun _ => some IOPoint.atOpen)
        (FileEntry.mk "f" "/f" ⟨none, none, none, none, none, none, 3⟩ [1] []) "p"
        ⟨[], []⟩ = .error st' ∧
      export_file_once (fun l => toString l) 0 (fun _ => some IOPoint.atOpen)
        (FileEntry.mk "f" "/f" ⟨none, none, none, none, none, none, 3⟩ [1] []) "p"
        ⟨[], []⟩ = st') ∧
    (∀ (c : ExportCall) (rest : List ExportCall) (st0 : ExtState),
      runExports (fun l => toString l) 0 (fun _ => some IOPoint.atOpen) (c :: rest) st0 =
        runExports (fun l => toString l) 0 (fun _ => some IOPoint.atOpen) rest
          (export_file (fun l => toString l) 0 (fun _ => some IOPoint.atOpen)
            c.entry c.path c.recursive st0))) :=
  ⟨rfl, export_file_swallows_io_errors (fun l => toString l) 0 (fun _ => some IOPoint.atOpen)
    (FileEntry.mk "f" "/f" ⟨none, none, none, none, none, none, 3⟩ [1] []) "p" ⟨[], []⟩ rfl⟩

/-! ### C7: copy-with-hash correctness -/

/-- C7: for every `export_file` call that completes without an I/O error, the
MD5 digest used for the uniqueness check is the digest of exactly the source
bytes (read in 32768-byte chunks until exhaustion and reassembled unchanged):
after the call that digest is recorded in `_extracted` for the source
location; and when the hash was new the bytes written to the output file are
exactly the source bytes. -/
theorem export_copies_bytes_and_hash (md5hex : List Byte → String) (now : ℚ)
    (err : String → Option IOPoint) (e : FileEntry) (path : String) (st : ExtState)
    (herr : err path = none) :
    md5hex e.data ∈
      (alookup (export_file_once md5hex now err e path st).extracted e.location).getD [] ∧
    (md5hex e.data ∉ (alookup st.extracted e.location).getD [] →
      alookup (export_file_once md5hex now err e path st).outFS path =
        some (OutFile.mk e.data (some (preserve_timestamps e.stat now)) e.location)) := by
  by_cases hdup : md5hex e.data ∈ (alookup st.extracted e.location).getD []
  · rw [export_file_once_dup md5hex now err e path st herr hdup]
    exact ⟨hdup, fun h => absurd hdup h⟩
  · rw [export_file_once_unique md5hex now err e path st herr hdup]
    constructor
    · simp [alookup_aset_self]
    · intro _
      simp [alookup_aset_self]

/-- Witness for C7 at a concrete input: a two-byte file is copied verbatim
with its digest recorded. -/
theorem export_copies_bytes_and_hash_witness :
    ((fun _ : String => (none : Option IOPoint)) "p1" = none) ∧
    ((fun l => toString l) (FileEntry.mk "SAM" "/cfg/SAM"
        ⟨some 10, none, some 20, none, some 30, none, 3⟩ [1, 2] []).data ∈
      (alookup (export_file_once (fun l => toString l) 0 (fun _ => none)
        (FileEntry.mk "SAM" "/cfg/SAM" ⟨some 10, none, some 20, none, some 30, none, 3⟩ [1, 2] [])
        "p1" ⟨[], []⟩).extracted
        (FileEntry.mk "SAM" "/cfg/SAM"
          ⟨some 10, none, some 20, none, some 30, none, 3⟩ [1, 2] []).location).getD [] ∧
    ((fun l => toString l) (FileEntry.mk "SAM" "/cfg/SAM"
        ⟨some 10, none, some 20, none, some 30, none, 3⟩ [1, 2] []).data ∉
      (alookup (⟨[], []⟩ : ExtState).extracted
        (FileEntry.mk "SAM" "/cfg/SAM"
          ⟨some 10, none, some 20, none, some 30, none, 3⟩ [1, 2] []).location).getD [] →
      alookup (export_file_once (fun l => toString l) 0 (fun _ => none)
        (FileEntry.mk "SAM" "/cfg/SAM" ⟨some 10, none, some 20, none, some 30, none, 3⟩ [1, 2] [])
        "p1" ⟨[], []⟩).outFS "p1" =
        some (OutFile.mk
          (FileEntry.mk "SAM" "/cfg/SAM"
            ⟨some 10, none, some 20, none, some 30, none, 3⟩ [1, 2] []).data
          (some (preserve_timestamps
            (FileEntry.mk "SAM" "/cfg/SAM"
              ⟨some 10, none, some 20, none, some 30, none, 3⟩ [1, 2] []).stat 0))
          (FileEntry.mk "SAM" "/cfg/SAM"
            ⟨some 10, none, some 20, none, some 30, none, 3⟩ [1, 2] []).location))) :=
  ⟨rfl, export_copies_bytes_and_hash (fun l => toString l) 0 (fun _ => none)
    (FileEntry.mk "SAM" "/cfg/SAM" ⟨some 10, none, some 20, none, some 30, none, 3⟩ [1, 2] [])
    "p1" ⟨[], []⟩ rfl⟩

/-! ### C5: timestamp preservation -/

/-- C5 (amended): for every file that is exported and kept (not removed as a
duplicate, no I/O error), the copy's `(created, accessed, modified)`
timestamps are set to the values `_preserve_timestamps` derives from the stat
object: the reported seconds value when the corresponding nano field is
absent — so exactly the original's timestamp in that case — and
`float(str(seconds) + '.' + str(nano))` when a nano field is present, which
in general differs from the timestamp the stat object reports (see the
counterexample); a timestamp whose stat field is absent entirely is set to
the current time instead. -/
theorem export_preserves_timestamps (md5hex : List Byte → String) (now : ℚ)
    (err : String → Option IOPoint) (e : FileEntry) (path : String) (st : ExtState)
    (herr : err path = none)
    (hkept : md5hex e.data ∉ (alookup st.extracted e.location).getD []) :
    ∃ f, alookup (export_file_once md5hex now err e path st).outFS path = some f ∧
      f.data = e.data ∧
      f.times = some (tsField e.stat.crtime e.stat.crtime_nano now,
                      tsField e.stat.atime e.stat.atime_nano now,
                      tsField e.stat.mtime e.stat.mtime_nano now) ∧
      (∀ a c m : Int, e.stat.atime = some a → e.stat.crtime = some c →
        e.stat.mtime = some m → e.stat.atime_nano = none → e.stat.crtime_nano = none →
        e.stat.mtime_nano = none → f.times = some ((c : ℚ), (a : ℚ), (m : ℚ))) := by
  rw [export_file_once_unique md5hex now err e path st herr hkept]
  refine ⟨OutFile.mk e.data (some (preserve_timestamps e.stat now)) e.location,
    by simp [alookup_aset_self], rfl, rfl, ?_⟩
  intro a c m ha hc hm han hcn hmn
  simp [preserve_timestamps, tsField, ha, hc, hm, han, hcn, hmn]

/-- C5 counterexample: the claim as stated is false for kept copies whose
stat object reports sub-second (nano) parts. With
`(crtime, atime, mtime) = (20, 10, 30)` and every nano field `7`, the code
restores `float(str(s) + '.' + str(7)) = s.7` seconds — the kept copy's
timestamps are `(20.7, 10.7, 30.7)` — while the timestamps reported by the
stat object are `s + 7e-9` (and `s + 7e-7` under a 100-nanosecond reading of
the field), neither of which equals `s.7`. -/
theorem timestamp_restore_wrong_on_nano :
    ((alookup (export_file_once (fun l => toString l) 0 (fun _ => none)
        (FileEntry.mk "SAM" "/cfg/SAM"
          ⟨some 10, some 7, some 20, some 7, some 30, some 7, 3⟩ [1, 2] [])
        "p1" ⟨[], []⟩).outFS "p1").map OutFile.times =
      some (some (concatTS 20 7, concatTS 10 7, concatTS 30 7))) ∧
    concatTS 10 7 = (107/10 : ℚ) ∧
    concatTS 10 7 ≠ statTimestamp 10 (some 7) ∧
    concatTS 20 7 ≠ statTimestamp 20 (some 7) ∧
    concatTS 30 7 ≠ statTimestamp 30 (some 7) ∧
    concatTS 10 7 ≠ (10 : ℚ) + 7 / 10000000 := by
  have hlen : (toString (7 : Nat)).length = 1 := rfl
  refine ⟨rfl, ?_, ?_, ?_, ?_, ?_⟩
  · simp [concatTS, hlen]
    norm_num
  · simp [concatTS, statTimestamp, hlen]
    norm_num
  · simp [concatTS, statTimestamp, hlen]
    norm_num
  · simp [concatTS, statTimestamp, hlen]
    norm_num
  · simp [concatTS, hlen]
    norm_num

/-- Witness for C5 (amended) at a concrete input: with stat
`(crtime, atime, mtime) = (20, 10, 30)` and no nano parts, the kept copy
carries exactly `(20, 10, 30)`. -/
theorem export_preserves_timestamps_witness :
    ∃ f, alookup (export_file_once (fun l => toString l) 99 (fun _ => none)
        (FileEntry.mk "SAM" "/cfg/SAM" ⟨some 10, none, some 20, none, some 30, none, 3⟩ [1, 2] [])
        "p1" ⟨[], []⟩).outFS "p1" = some f ∧
      f.data = (FileEntry.mk "SAM" "/cfg/SAM"
        ⟨some 10, none, some 20, none, some 30, none, 3⟩ [1, 2] []).data ∧
      f.times = some
        (tsField (FileEntry.mk "SAM" "/cfg/SAM"
            ⟨some 10, none, some 20, none, some 30, none, 3⟩ [1, 2] []).stat.crtime
          (FileEntry.mk "SAM" "/cfg/SAM"
            ⟨some 10, none, some 20, none, some 30, none, 3⟩ [1, 2] []).stat.crtime_nano 99,
         tsField (FileEntry.mk "SAM" "/cfg/SAM"
            ⟨some 10, none, some 20, none, some 30, none, 3⟩ [1, 2] []).stat.atime
          (FileEntry.mk "SAM" "/cfg/SAM"
            ⟨some 10, none, some 20, none, some 30, none, 3⟩ [1, 2] []).stat.atime_nano 99,
         tsField (FileEntry.mk "SAM" "/cfg/SAM"
            ⟨some 10, none, some 20, none, some 30, none, 3⟩ [1, 2] []).stat.mtime
          (FileEntry.mk "SAM" "/cfg/SAM"
            ⟨some 10, none, some 20, none, some 30, none, 3⟩ [1, 2] []).stat.mtime_nano 99) ∧
      (∀ a c m : Int,
        (FileEntry.mk "SAM" "/cfg/SAM"
          ⟨some 10, none, some 20, none, some 30, none, 3⟩ [1, 2] []).stat.atime = some a →
        (FileEntry.mk "SAM" "/cfg/SAM"
          ⟨some 10, none, some 20, none, some 30, none, 3⟩ [1, 2] []).stat.crtime = some c →
        (FileEntry.mk "SAM" "/cfg/SAM"
          ⟨some 10, none, some 20, none, some 30, none, 3⟩ [1, 2] []).stat.mtime = some m →
        (FileEntry.mk "SAM" "/cfg/SAM"
          ⟨some 10, none, some 20, none, some 30, none, 3⟩ [1, 2] []).stat.atime_nano = none →
        (FileEntry.mk "SAM" "/cfg/SAM"
          ⟨some 10, none, some 20, none, some 30, none, 3⟩ [1, 2] []).stat.crtime_nano = none →
        (FileEntry.mk "SAM" "/cfg/SAM"
          ⟨some 10, none, some 20, none, some 30, none, 3⟩ [1, 2] []).stat.mtime_nano = none →
        f.times = some ((c : ℚ), (a : ℚ), (m : ℚ))) :=
  export_preserves_timestamps (fun l => toString l) 99 (fun _ => none)
    (FileEntry.mk "SAM" "/cfg/SAM" ⟨some 10, none, some 20, none, some 30, none, 3⟩ [1, 2] [])
    "p1" ⟨[], []⟩ rfl (by decide)

/-! ### C1: deduplication keyed by original location -/

theorem exportOnce_goodState (md5hex : List Byte → String) (now : ℚ)
    (err : String → Option IOPoint) (e : FileEntry) (path : String) (st : ExtState)
    (herr : err path = none) (hg : GoodState md5hex st) :
    GoodState md5hex (export_file_once md5hex now err e path st) := by
  obtain ⟨hrec, hnd⟩ := hg
  by_cases hdup : md5hex e.data ∈ (alookup st.extracted e.location).getD []
  · rw [export_file_once_dup md5hex now err e path st herr hdup]
    have hmem : ∀ x : String × OutFile,
        x ∈ aremove (aset st.outFS path (OutFile.mk e.data none e.location)) path →
        x ∈ st.outFS := by
      intro x hx
      have h1 := (mem_aremove_iff _ _ _).mp hx
      rcases mem_of_mem_aset h1.1 with h2 | h2
      · exact absurd (congrArg Prod.fst h2) h1.2
      · exact h2
    constructor
    · intro pf hpf
      exact hrec pf (hmem pf hpf)
    · intro pf hpf qg hqg hne hloc
      exact hnd pf (hmem pf hpf) qg (hmem qg hqg) hne hloc
  · rw [export_file_once_unique md5hex now err e path st herr hdup]
    have classify : ∀ x : String × OutFile,
        x ∈ aset (aset st.outFS path (OutFile.mk e.data none e.location)) path
              (OutFile.mk e.data (some (preserve_timestamps e.stat now)) e.location) →
        (x = (path, OutFile.mk e.data (some (preserve_timestamps e.stat now)) e.location) ∨
          x = (path, OutFile.mk e.data none e.location)) ∨ x ∈ st.outFS := by
      intro x hx
      rcases mem_of_mem_aset hx with hh | hh
      · exact Or.inl (Or.inl hh)
      · rcases mem_of_mem_aset hh with hh2 | hh2
        · exact Or.inl (Or.inr hh2)
        · exact Or.inr hh2
    constructor
    · intro pf hpf
      rcases classify pf hpf with (h1 | h1) | h1
      · rw [h1]
        simp only [alookup_aset_self, Option.getD_some]
        exact List.mem_append_right _ (List.mem_singleton_self _)
      · rw [h1]
        simp only [alookup_aset_self, Option.getD_some]
        exact List.mem_append_right _ (List.mem_singleton_self _)
      · have hold := hrec pf h1
        by_cases hl : pf.2.origLoc = e.location
        · rw [hl, alookup_aset_self]
          rw [hl] at hold
          simp only [Option.getD_some]
          exact List.mem_append_left _ hold
        · rw [alookup_aset_ne st.extracted e.location pf.2.origLoc _ hl]
          exact hold
    · intro pf hpf qg hqg hne hloc heq
      rcases classify pf hpf with hpf' | hpf' <;> rcases classify qg hqg with hqg' | hqg'
      · have h1 : pf.1 = path := by rcases hpf' with hh | hh <;> rw [hh]
        have h2 : qg.1 = path := by rcases hqg' with hh | hh <;> rw [hh]
        exact hne (h1.trans h2.symm)
      · have hdata : pf.2.data = e.data := by rcases hpf' with hh | hh <;> rw [hh]
        have hol : pf.2.origLoc = e.location := by rcases hpf' with hh | hh <;> rw [hh]
        have hq := hrec qg hqg'
        rw [← hloc, hol] at hq
        rw [hdata] at heq
        rw [← heq] at hq
        exact hdup hq
      · have hdata : qg.2.data = e.data := by rcases hqg' with hh | hh <;> rw [hh]
        have hol : qg.2.origLoc = e.location := by rcases hqg' with hh | hh <;> rw [hh]
        have hp := hrec pf hpf'
        rw [hloc, hol] at hp
        rw [hdata] at heq
        rw [heq] at hp
        exact hdup hp
      · exact hnd pf hpf' qg hqg' hne hloc heq

theorem foldl_exportOnce_goodState (md5hex : List Byte → String) (now : ℚ)
    (path : String) (subs : List FileEntry) (st : ExtState) (hg : GoodState md5hex st) :
    GoodState md5hex (subs.foldl
      (fun s sub => export_file_once md5hex now (fun _ => none) sub (pyJoin path sub.name) s) st) := by
  induction subs generalizing st with
  | nil => exact hg
  | cons x xs ih =>
    exact ih _ (exportOnce_goodState md5hex now (fun _ => none) x (pyJoin path x.name) st rfl hg)

theorem export_file_goodState (md5hex : List Byte → String) (now : ℚ)
    (e : FileEntry) (path : String) (recursive : Bool) (st : ExtState)
    (hg : GoodState md5hex st) :
    GoodState md5hex (export_file md5hex now (fun _ => none) e path recursive st) := by
  have h1 := exportOnce_goodState md5hex now (fun _ => none) e path st rfl hg
  unfold export_file
  cases recursive
  · simpa using h1
  · simpa using foldl_exportOnce_goodState md5hex now path e.subs _ h1

theorem runExports_goodState (md5hex : List Byte → String) (now : ℚ)
    (calls : List ExportCall) (st : ExtState) (hg : GoodState md5hex st) :
    GoodState md5hex (runExports md5hex now (fun _ => none) calls st) := by
  induction calls generalizing st with
  | nil => exact hg
  | cons c cs ih =>
    exact ih _ (export_file_goodState md5hex now c.entry c.path c.recursive st hg)

/-- C1 (amended): `_check_unique(file_entry, md5)` returns False exactly when
the md5 is already recorded in `_extracted` for the entry's original location,
in which case the map is unchanged and `export_file` removes the just-written
copy; otherwise it appends the hash and returns True. Consequently, across
every sequence of `export_file` calls in which no I/O error strikes, at every
point no two kept copies with identical hash exist for the same original
location. (The claim's unconditional version of the invariant is refuted by
the counterexample: a call interrupted by an I/O error can leave a copy on
disk whose hash was never checked or recorded.) -/
theorem check_unique_dedup_correct (md5hex : List Byte → String) :
    (∀ (st : ExtState) (e : FileEntry) (h : String),
      ((check_unique st e h).1 = false ↔ h ∈ (alookup st.extracted e.location).getD []) ∧
      ((check_unique st e h).1 = false → (check_unique st e h).2 = st) ∧
      ((check_unique st e h).1 = true →
        alookup (check_unique st e h).2.extracted e.location =
          some ((alookup st.extracted e.location).getD [] ++ [h]))) ∧
    (∀ (now : ℚ) (err : String → Option IOPoint) (e : FileEntry) (path : String) (st : ExtState),
      err path = none → md5hex e.data ∈ (alookup st.extracted e.location).getD [] →
      alookup (export_file_once md5hex now err e path st).outFS path = none) ∧
    (∀ (now : ℚ) (calls : List ExportCall) (st : ExtState),
      GoodState md5hex st →
      GoodState md5hex (runExports md5hex now (fun _ => none) calls st)) := by
  refine ⟨?_, ?_, fun now calls st hg => runExports_goodState md5hex now calls st hg⟩
  · intro st e h
    by_cases hdup : h ∈ (alookup st.extracted e.location).getD []
    · rw [check_unique_eq_dup st e h hdup]
      refine ⟨by simpa using hdup, fun _ => rfl, fun hfalse => by simp at hfalse⟩
    · rw [check_unique_eq_new st e h hdup]
      refine ⟨by simpa using hdup, fun htrue => by simp at htrue, fun _ => ?_⟩
      exact alookup_aset_self _ _ _
  · intro now err e path st herr hdup
    rw [export_file_once_dup md5hex now err e path st herr hdup]
    exact alookup_aremove_self _ _

/-- C1 counterexample: the invariant as stated in the claim ("for every
sequence of `export_file` calls ... no two kept copies with identical hash
exist for the same original location") is false: an I/O error striking at the
second read of a one-chunk file leaves the fully-written copy at "p1" on disk
without a hash check, and a later error-free export of the same content from
the same original location is kept at "p2": two kept copies with identical
hash for one original location. -/
theorem dedup_invariant_fails_on_io_error :
    (alookup (runExports (fun l => toString l) 0
        (fun p => if p = "p1" then some (.duringCopy 1) else none)
        [⟨FileEntry.mk "SAM" "/cfg/SAM" ⟨none, none, none, none, none, none, 3⟩ [1, 2] [], "p1", false⟩,
         ⟨FileEntry.mk "SAM" "/cfg/SAM" ⟨none, none, none, none, none, none, 3⟩ [1, 2] [], "p2", false⟩]
        ⟨[], []⟩).outFS "p1").map (fun f => (f.data, f.origLoc)) = some ([1, 2], "/cfg/SAM") ∧
    (alookup (runExports (fun l => toString l) 0
        (fun p => if p = "p1" then some (.duringCopy 1) else none)
        [⟨FileEntry.mk "SAM" "/cfg/SAM" ⟨none, none, none, none, none, none, 3⟩ [1, 2] [], "p1", false⟩,
         ⟨FileEntry.mk "SAM" "/cfg/SAM" ⟨none, none, none, none, none, none, 3⟩ [1, 2] [], "p2", false⟩]
        ⟨[], []⟩).outFS "p2").map (fun f => (f.data, f.origLoc)) = some ([1, 2], "/cfg/SAM") ∧
    ¬ NoDupKept (fun l => toString l)
      (runExports (fun l => toString l) 0
        (fun p => if p = "p1" then some (.duringCopy 1) else none)
        [⟨FileEntry.mk "SAM" "/cfg/SAM" ⟨none, none, none, none, none, none, 3⟩ [1, 2] [], "p1", false⟩,
         ⟨FileEntry.mk "SAM" "/cfg/SAM" ⟨none, none, none, none, none, none, 3⟩ [1, 2] [], "p2", false⟩]
        ⟨[], []⟩) := by
  refine ⟨by decide, by decide, ?_⟩
  unfold NoDupKept
  decide

/-- Witness for C1 at a concrete input: an error-free sequence of two exports
of identical content from one original location ends in a state satisfying
the deduplication invariant (the duplicate was removed). -/
theorem check_unique_dedup_correct_witness :
    GoodState (fun l => toString l)
      (runExports (fun l => toString l) 0 (fun _ => none)
        [⟨FileEntry.mk "SAM" "/cfg/SAM" ⟨none, none, none, none, none, none, 3⟩ [1, 2] [], "p1", false⟩,
         ⟨FileEntry.mk "SAM" "/cfg/SAM" ⟨none, none, none, none, none, none, 3⟩ [1, 2] [], "p2", false⟩]
        ⟨[], []⟩) :=
  (check_unique_dedup_correct (fun l => toString l)).2.2 0
    [⟨FileEntry.mk "SAM" "/cfg/SAM" ⟨none, none, none, none, none, none, 3⟩ [1, 2] [], "p1", false⟩,
     ⟨FileEntry.mk "SAM" "/cfg/SAM" ⟨none, none, none, none, none, none, 3⟩ [1, 2] [], "p2", false⟩]
    ⟨[], []⟩
    ⟨fun pf hpf => absurd hpf (List.not_mem_nil pf),
     fun pf hpf => absurd hpf (List.not_mem_nil pf)⟩

/-! ### C8: the reordering loop puts non-shadow specifications first -/

theorem moveStep_skip {l : List BasePathSpec} {i : Nat} (h : i < l.length)
    (hv : l[i].parent_type_indicator = "VSHADOW") : moveStep l i = l := by
  unfold moveStep
  rw [List.getElem?_eq_getElem h]
  simp [hv]

theorem moveStep_move {l : List BasePathSpec} {i : Nat} (h : i < l.length)
    (hnd : l.Nodup) (hv : l[i].parent_type_indicator ≠ "VSHADOW") :
    moveStep l i = l[i] :: (l.take i ++ l.drop (i + 1)) := by
  unfold moveStep
  rw [List.getElem?_eq_getElem h]
  simp only [ne_eq, hv, not_false_eq_true, if_pos]
  rw [List.indexOf_getElem hnd i h, List.eraseIdx_eq_take_drop_succ]

theorem moveStep_perm (l : List BasePathSpec) (i : Nat) : (moveStep l i).Perm l := by
  unfold moveStep
  cases hg : l[i]? with
  | none =>
    simp only [hg]
    exact List.Perm.refl l
  | some x =>
    simp only [hg]
    by_cases hx : x.parent_type_indicator ≠ "VSHADOW"
    · rw [if_pos hx, List.eraseIdx_indexOf_eq_erase x l]
      have hxm : x ∈ l := by
        obtain ⟨h, rfl⟩ := List.getElem?_eq_some.mp hg
        exact List.getElem_mem h
      exact (List.perm_cons_erase hxm).symm
    · rw [if_neg hx]

theorem reorderGo_pairwise : ∀ (fuel : Nat) (l : List BasePathSpec) (i : Nat),
    l.Nodup → fuel = l.length - i → (l.take i).Pairwise VscAfter →
    (reorderGo l i fuel).Pairwise VscAfter := by
  intro fuel
  induction fuel with
  | zero =>
    intro l i hnd hfuel hp
    have hi : l.length ≤ i := by omega
    rw [List.take_of_length_le hi] at hp
    exact hp
  | succ g ih =>
    intro l i hnd hfuel hp
    unfold reorderGo
    by_cases hlt : i < l.length
    · rw [if_pos hlt]
      have hperm := moveStep_perm l i
      have hlen : (moveStep l i).length = l.length := hperm.length_eq
      have hnd' : (moveStep l i).Nodup := hperm.nodup_iff.mpr hnd
      have hfuel' : g = (moveStep l i).length - (i + 1) := by omega
      refine ih (moveStep l i) (i + 1) hnd' hfuel' ?_
      by_cases hv : l[i].parent_type_indicator = "VSHADOW"
      · rw [moveStep_skip hlt hv, List.take_succ, List.getElem?_eq_getElem hlt]
        rw [List.pairwise_append]
        refine ⟨hp, List.pairwise_singleton _ _, ?_⟩
        intro a _ b hb
        rw [List.mem_singleton.mp hb]
        intro _
        exact hv
      · rw [moveStep_move hlt hnd hv]
        have htk : (l[i] :: (l.take i ++ l.drop (i + 1))).take (i + 1) = l[i] :: l.take i := by
          rw [List.take_succ_cons]
          congr 1
          exact List.take_left' (List.length_take_of_le (Nat.le_of_lt hlt))
        rw [htk, List.pairwise_cons]
        refine ⟨?_, hp⟩
        intro b _ hvsc
        exact absurd hvsc hv
    · rw [if_neg hlt]
      have hi : l.length ≤ i := by omega
      rw [List.take_of_length_le hi] at hp
      exact hp

/-- C8: after the reordering loop at the start of `extract_artifacts`, for
every input list of base path specifications with pairwise distinct elements,
every specification whose parent type indicator is not `VSHADOW` occurs
before every specification whose parent type indicator is `VSHADOW`: in index
form, a non-shadow entry at position `i` and a shadow entry at position `j`
satisfy `i < j`. -/
theorem non_vsc_processed_first (l : List BasePathSpec) (hnd : l.Nodup) :
    (reorder l).Pairwise VscAfter ∧
    (∀ (i j : Nat) (hi : i < (reorder l).length) (hj : j < (reorder l).length),
      (reorder l)[i].parent_type_indicator ≠ "VSHADOW" →
      (reorder l)[j].parent_type_indicator = "VSHADOW" → i < j) := by
  have hpw : (reorder l).Pairwise VscAfter :=
    reorderGo_pairwise l.length l 0 hnd (by omega) (by simp)
  refine ⟨hpw, ?_⟩
  intro i j hi hj hnv hvj
  rcases Nat.lt_trichotomy i j with h | h | h
  · exact h
  · subst h
    exact absurd hvj hnv
  · have := (List.pairwise_iff_getElem.mp hpw) j i hj hi h
    exact absurd (this hvj) hnv

/-- Witness for C8 at a concrete input: a distinct three-element list with a
shadow copy in the middle is reordered with both non-shadow entries first. -/
theorem non_vsc_processed_first_witness :
    (([⟨"/", "TSK", 0⟩, ⟨"/", "VSHADOW", 1⟩, ⟨"/", "TSK", 2⟩] : List BasePathSpec).Nodup) ∧
    ((reorder [⟨"/", "TSK", 0⟩, ⟨"/", "VSHADOW", 1⟩, ⟨"/", "TSK", 2⟩]).Pairwise VscAfter ∧
     (∀ (i j : Nat)
        (hi : i < (reorder [(⟨"/", "TSK", 0⟩ : BasePathSpec), ⟨"/", "VSHADOW", 1⟩, ⟨"/", "TSK", 2⟩]).length)
        (hj : j < (reorder [(⟨"/", "TSK", 0⟩ : BasePathSpec), ⟨"/", "VSHADOW", 1⟩, ⟨"/", "TSK", 2⟩]).length),
      (reorder [(⟨"/", "TSK", 0⟩ : BasePathSpec), ⟨"/", "VSHADOW", 1⟩, ⟨"/", "TSK", 2⟩])[i].parent_type_indicator ≠ "VSHADOW" →
      (reorder [(⟨"/", "TSK", 0⟩ : BasePathSpec), ⟨"/", "VSHADOW", 1⟩, ⟨"/", "TSK", 2⟩])[j].parent_type_indicator = "VSHADOW" → i < j)) :=
  ⟨by decide, non_vsc_processed_first [⟨"/", "TSK", 0⟩, ⟨"/", "VSHADOW", 1⟩, ⟨"/", "TSK", 2⟩] (by decide)⟩

/-! ### String and path lemmas for the output-layout claims -/

theorem str_ext {s t : String} (h : s.data = t.data) : s = t := by
  cases s
  cases t
  exact congrArg String.mk h

theorem data_append (a b : String) : (a ++ b).data = a.data ++ b.data := rfl

theorem mk_data (s : String) : (⟨s.data⟩ : String) = s := by
  cases s
  rfl

theorem pyJoin_to_empty (a : String) (hne : a.data ≠ []) (hsl : a.data.getLast? ≠ some '/') :
    pyJoin a "" = a ++ "/" := by
  unfold pyJoin
  rw [if_neg (by decide), if_neg (by simp [hne, hsl])]
  apply str_ext
  simp [data_append]

theorem pyJoin_slash_end (a b : String) (ha : a.data.getLast? = some '/')
    (hb : b.data.head? ≠ some '/') : pyJoin a b = a ++ b := by
  unfold pyJoin
  rw [if_neg hb, if_pos (Or.inr ha)]

theorem pyJoin_plain (a b : String) (hne : a.data ≠ []) (hsl : a.data.getLast? ≠ some '/')
    (hb : b.data.head? ≠ some '/') : pyJoin a b = a ++ "/" ++ b := by
  unfold pyJoin
  rw [if_neg hb, if_neg (by simp [hne, hsl])]

theorem pyJoin_extends (x b : String) (hb : b.data.head? ≠ some '/') :
    ∃ t, pyJoin x b = x ++ t := by
  unfold pyJoin
  rw [if_neg hb]
  by_cases h2 : x.data = [] ∨ x.data.getLast? = some '/'
  · exact ⟨b, by rw [if_pos h2]⟩
  · refine ⟨"/" ++ b, ?_⟩
    rw [if_neg h2]
    apply str_ext
    simp [data_append]

theorem head?_ne_slash_of_no_slash {b : String} (h : '/' ∉ b.data) :
    b.data.head? ≠ some '/' := by
  cases hd : b.data with
  | nil => simp
  | cons x xs =>
    simp only [List.head?_cons, ne_eq, Option.some.injEq]
    intro hx
    apply h
    rw [hd, hx]
    exact List.mem_cons_self _ _

theorem getLast?_ne_slash_of_no_slash {b : String} (h : '/' ∉ b.data) :
    b.data.getLast? ≠ some '/' := by
  intro hl
  exact h (List.mem_of_mem_getLast? hl)

/-- Appending a nonempty piece makes its last character the last character of
the whole. -/
theorem getLast?_append_piece (x p : String) (hpne : p.data ≠ []) :
    (x ++ p).data.getLast? = p.data.getLast? := by
  rw [data_append, List.getLast?_append]
  cases hp : p.data.getLast? with
  | none => exact absurd (List.getLast?_eq_none_iff.mp hp) hpne
  | some a => rfl

/-! The fold of `os.path.join` over the split pieces of a category string of
the form `/m1/`, `/m1/m2/` or `/m1/m2/m3/`. -/

theorem gop1 (dest : String) (hne : dest.data ≠ []) (hsl : dest.data.getLast? ≠ some '/')
    (m1 : String) (h1h : m1.data.head? ≠ some '/') (h1e : m1.data ≠ [])
    (h1l : m1.data.getLast? ≠ some '/') :
    (["", m1, ""] : List String).foldl pyJoin dest = dest ++ "/" ++ m1 ++ "/" := by
  simp only [List.foldl_cons, List.foldl_nil]
  rw [pyJoin_to_empty dest hne hsl]
  rw [pyJoin_slash_end (dest ++ "/") m1 (by simp [data_append]) h1h]
  rw [pyJoin_to_empty (dest ++ "/" ++ m1) (by simp [data_append])
    (by rw [getLast?_append_piece _ _ h1e]; exact h1l)]

theorem gop2 (dest : String) (hne : dest.data ≠ []) (hsl : dest.data.getLast? ≠ some '/')
    (m1 m2 : String) (h1h : m1.data.head? ≠ some '/') (h1e : m1.data ≠ [])
    (h1l : m1.data.getLast? ≠ some '/')
    (h2h : m2.data.head? ≠ some '/') (h2e : m2.data ≠ [])
    (h2l : m2.data.getLast? ≠ some '/') :
    (["", m1, m2, ""] : List String).foldl pyJoin dest =
      dest ++ "/" ++ m1 ++ "/" ++ m2 ++ "/" := by
  simp only [List.foldl_cons, List.foldl_nil]
  rw [pyJoin_to_empty dest hne hsl]
  rw [pyJoin_slash_end (dest ++ "/") m1 (by simp [data_append]) h1h]
  rw [pyJoin_plain (dest ++ "/" ++ m1) m2 (by simp [data_append])
    (by rw [getLast?_append_piece _ _ h1e]; exact h1l) h2h]
  rw [pyJoin_to_empty (dest ++ "/" ++ m1 ++ "/" ++ m2) (by simp [data_append])
    (by rw [getLast?_append_piece _ _ h2e]; exact h2l)]

theorem gop3 (dest : String) (hne : dest.data ≠ []) (hsl : dest.data.getLast? ≠ some '/')
    (m1 m2 m3 : String) (h1h : m1.data.head? ≠ some '/') (h1e : m1.data ≠ [])
    (h1l : m1.data.getLast? ≠ some '/')
    (h2h : m2.data.head? ≠ some '/') (h2e : m2.data ≠ [])
    (h2l : m2.data.getLast? ≠ some '/')
    (h3h : m3.data.head? ≠ some '/') (h3e : m3.data ≠ [])
    (h3l : m3.data.getLast? ≠ some '/') :
    (["", m1, m2, m3, ""] : List String).foldl pyJoin dest =
      dest ++ "/" ++ m1 ++ "/" ++ m2 ++ "/" ++ m3 ++ "/" := by
  simp only [List.foldl_cons, List.foldl_nil]
  rw [pyJoin_to_empty dest hne hsl]
  rw [pyJoin_slash_end (dest ++ "/") m1 (by simp [data_append]) h1h]
  rw [pyJoin_plain (dest ++ "/" ++ m1) m2 (by simp [data_append])
    (by rw [getLast?_append_piece _ _ h1e]; exact h1l) h2h]
  rw [pyJoin_plain (dest ++ "/" ++ m1 ++ "/" ++ m2) m3 (by simp [data_append])
    (by rw [getLast?_append_piece _ _ h2e]; exact h2l) h3h]
  rw [pyJoin_to_empty (dest ++ "/" ++ m1 ++ "/" ++ m2 ++ "/" ++ m3) (by simp [data_append])
    (by rw [getLast?_append_piece _ _ h3e]; exact h3l)]

/-- `_get_output_path` on every catalogue category appends the category path
verbatim to the output base directory (for a nonempty base directory that
does not end in a separator). -/
theorem get_output_path_cat (dest : String) (hne : dest.data ≠ [])
    (hsl : dest.data.getLast? ≠ some '/') :
    ∀ c ∈ ALL_CATEGORIES, get_output_path dest c = dest ++ c := by
  intro c hc
  simp only [ALL_CATEGORIES, List.mem_cons, List.mem_singleton, List.not_mem_nil, or_false] at hc
  rcases hc with rfl | rfl | rfl | rfl | rfl | rfl | rfl | rfl | rfl | rfl
  · unfold get_output_path
    rw [show pySplit "/Registry/" '/' = ["", "Registry", ""] from rfl]
    rw [gop1 dest hne hsl "Registry" (by decide) (by decide) (by decide)]
    apply str_ext
    simp [data_append]
  · unfold get_output_path
    rw [show pySplit "/Registry/RegBack/" '/' = ["", "Registry", "RegBack", ""] from rfl]
    rw [gop2 dest hne hsl "Registry" "RegBack" (by decide) (by decide) (by decide)
      (by decide) (by decide) (by decide)]
    apply str_ext
    simp [data_append]
  · unfold get_output_path
    rw [show pySplit "/OSLogs/" '/' = ["", "OSLogs", ""] from rfl]
    rw [gop1 dest hne hsl "OSLogs" (by decide) (by decide) (by decide)]
    apply str_ext
    simp [data_append]
  · unfold get_output_path
    rw [show pySplit "/MRU/Prog/" '/' = ["", "MRU", "Prog", ""] from rfl]
    rw [gop2 dest hne hsl "MRU" "Prog" (by decide) (by decide) (by decide)
      (by decide) (by decide) (by decide)]
    apply str_ext
    simp [data_append]
  · unfold get_output_path
    rw [show pySplit "/MRU/Prog/prefetch/" '/' = ["", "MRU", "Prog", "prefetch", ""] from rfl]
    rw [gop3 dest hne hsl "MRU" "Prog" "prefetch" (by decide) (by decide) (by decide)
      (by decide) (by decide) (by decide) (by decide) (by decide) (by decide)]
    apply str_ext
    simp [data_append]
  · unfold get_output_path
    rw [show pySplit "/MRU/Prog/srum/" '/' = ["", "MRU", "Prog", "srum", ""] from rfl]
    rw [gop3 dest hne hsl "MRU" "Prog" "srum" (by decide) (by decide) (by decide)
      (by decide) (by decide) (by decide) (by decide) (by decide) (by decide)]
    apply str_ext
    simp [data_append]
  · unfold get_output_path
    rw [show pySplit "/MRU/Prog/sccm/" '/' = ["", "MRU", "Prog", "sccm", ""] from rfl]
    rw [gop3 dest hne hsl "MRU" "Prog" "sccm" (by decide) (by decide) (by decide)
      (by decide) (by decide) (by decide) (by decide) (by decide) (by decide)]
    apply str_ext
    simp [data_append]
  · unfold get_output_path
    rw [show pySplit "/MRU/Files/lnk/" '/' = ["", "MRU", "Files", "lnk", ""] from rfl]
    rw [gop3 dest hne hsl "MRU" "Files" "lnk" (by decide) (by decide) (by decide)
      (by decide) (by decide) (by decide) (by decide) (by decide) (by decide)]
    apply str_ext
    simp [data_append]
  · unfold get_output_path
    rw [show pySplit "/MRU/Files/jmp/" '/' = ["", "MRU", "Files", "jmp", ""] from rfl]
    rw [gop3 dest hne hsl "MRU" "Files" "jmp" (by decide) (by decide) (by decide)
      (by decide) (by decide) (by decide) (by decide) (by decide) (by decide)]
    apply str_ext
    simp [data_append]
  · unfold get_output_path
    rw [show pySplit "/MRU/Files/webcache/" '/' = ["", "MRU", "Files", "webcache", ""] from rfl]
    rw [gop3 dest hne hsl "MRU" "Files" "webcache" (by decide) (by decide) (by decide)
      (by decide) (by decide) (by decide) (by decide) (by decide) (by decide)]
    apply str_ext
    simp [data_append]

/-! ### Lemmas about `str.split('/')` -/

theorem splitOnChar_ne_nil (c : Char) (l : List Char) : splitOnChar c l ≠ [] := by
  cases l with
  | nil => simp [splitOnChar]
  | cons x xs =>
    simp only [splitOnChar]
    cases h : splitOnChar c xs with
    | nil => simp
    | cons p ps => by_cases hx : x = c <;> simp [hx]

theorem mem_splitOnChar_not_mem (c : Char) : ∀ (l : List Char) (p : List Char),
    p ∈ splitOnChar c l → c ∉ p := by
  intro l
  induction l with
  | nil =>
    intro p hp
    simp only [splitOnChar, List.mem_singleton] at hp
    subst hp
    simp
  | cons x xs ih =>
    intro p hp
    simp only [splitOnChar] at hp
    cases h : splitOnChar c xs with
    | nil => exact absurd h (splitOnChar_ne_nil c xs)
    | cons q qs =>
      rw [h] at hp
      simp only [] at hp
      by_cases hx : x = c
      · rw [if_pos hx] at hp
        rcases List.mem_cons.mp hp with rfl | hp2
        · simp
        · exact ih p (by rw [h]; exact hp2)
      · rw [if_neg hx] at hp
        rcases List.mem_cons.mp hp with rfl | hp2
        · intro hc
          rcases List.mem_cons.mp hc with hceq | hc2
          · exact hx hceq.symm
          · exact ih q (by rw [h]; exact List.mem_cons_self q qs) hc2
        · exact ih p (by rw [h]; exact List.mem_cons_of_mem _ hp2)

theorem splitOnChar_append (c : Char) : ∀ (xs ys : List Char), c ∉ xs →
    splitOnChar c (xs ++ c :: ys) = xs :: splitOnChar c ys := by
  intro xs
  induction xs with
  | nil =>
    intro ys _
    cases hq : splitOnChar c ys with
    | nil => exact absurd hq (splitOnChar_ne_nil c ys)
    | cons q qs => simp [splitOnChar, hq]
  | cons x xs ih =>
    intro ys h
    have hx : ¬ x = c := fun hh => h (hh ▸ List.mem_cons_self x xs)
    simp only [List.cons_append, splitOnChar, List.append_eq]
    rw [show splitOnChar c (xs ++ c :: ys) = xs :: splitOnChar c ys from
      ih ys (fun hc => h (List.mem_cons_of_mem _ hc))]
    simp [hx]

theorem splitOnChar_single (c : Char) : ∀ (l : List Char), c ∉ l → splitOnChar c l = [l] := by
  intro l
  induction l with
  | nil => intro _; rfl
  | cons x xs ih =>
    intro h
    have hx : ¬ x = c := fun hh => h (hh ▸ List.mem_cons_self x xs)
    simp only [splitOnChar]
    rw [show splitOnChar c xs = [xs] from ih (fun hc => h (List.mem_cons_of_mem _ hc))]
    simp [hx]

theorem getLastD_mem {α : Type} (l : List α) (d : α) (h : l ≠ []) : l.getLastD d ∈ l := by
  rw [List.getLastD_eq_getLast?]
  cases hq : l.getLast? with
  | none => exact absurd (List.getLast?_eq_none_iff.mp hq) h
  | some a => simpa using List.mem_of_mem_getLast? hq

theorem pySplit_ne_nil (s : String) (c : Char) : pySplit s c ≠ [] := by
  unfold pySplit
  intro hh
  exact splitOnChar_ne_nil c s.data (List.map_eq_nil_iff.mp hh)

/-- A path's last `/`-separated component contains no separator. -/
theorem lastComp_no_slash (s : String) : '/' ∉ (lastComp s).data := by
  unfold lastComp
  have hmem := getLastD_mem (pySplit s '/') "" (pySplit_ne_nil s '/')
  unfold pySplit at hmem ⊢
  obtain ⟨p, hp, heq⟩ := List.mem_map.mp hmem
  rw [← heq]
  exact mem_splitOnChar_not_mem '/' s.data p hp

/-- A slash-free leading component is among the `/`-separated components. -/
theorem vsc_mem_components (vsc t : String) (hv : '/' ∉ vsc.data) :
    vsc ∈ pySplit (vsc ++ "/" ++ t) '/' := by
  unfold pySplit
  rw [show (vsc ++ "/" ++ t).data = vsc.data ++ '/' :: t.data from by simp [data_append]]
  rw [splitOnChar_append '/' vsc.data t.data hv]
  simp [mk_data]

/-- A slash-free whole string is its own single component. -/
theorem self_mem_components (vsc : String) (hv : '/' ∉ vsc.data) :
    vsc ∈ pySplit vsc '/' := by
  unfold pySplit
  rw [splitOnChar_single '/' vsc.data hv]
  simp [mk_data]

/-- A slash-free trailing component is among the `/`-separated components. -/
theorem vsc_mem_components_snd (dir vsc : String) (hd : '/' ∉ dir.data)
    (hv : '/' ∉ vsc.data) : vsc ∈ pySplit (dir ++ "/" ++ vsc) '/' := by
  unfold pySplit
  rw [show (dir ++ "/" ++ vsc).data = dir.data ++ '/' :: vsc.data from by simp [data_append]]
  rw [splitOnChar_append '/' dir.data vsc.data hd, splitOnChar_single '/' vsc.data hv]
  simp [mk_data]

/-! ### Characterizations of the `extract_artifacts` trace -/

theorem mem_sysFileEvents {resolve : BasePathSpec → Option FileEntry} {dest : String}
    {spec : BasePathSpec} {vsc_dir : String} {arts : List Artifact} {ev : Event}
    (hev : ev ∈ sysFileEvents resolve dest spec vsc_dir arts) :
    ∃ a ∈ arts, (∃ fe, resolve { spec with location := a.loc } = some fe) ∧
      ev = .exportCall .system a.loc
        (if spec.parent_type_indicator = "VSHADOW" then
          pyJoin (pyJoin (get_output_path dest a.out) vsc_dir) (lastComp a.loc)
        else pyJoin (get_output_path dest a.out) (lastComp a.loc)) false := by
  unfold sysFileEvents at hev
  obtain ⟨a, ha, hev⟩ := List.mem_flatMap.mp hev
  refine ⟨a, ha, ?_⟩
  rcases hr : (get_file_entry resolve spec a.loc).1 with _ | fe
  · rw [hr] at hev
    simp at hev
  · rw [hr] at hev
    simp only [] at hev
    refine ⟨⟨fe, hr⟩, ?_⟩
    by_cases hvs : spec.parent_type_indicator = "VSHADOW"
    · rw [if_pos hvs] at hev ⊢
      simpa using hev
    · rw [if_neg hvs] at hev ⊢
      simpa using hev

theorem mem_sysDirEvents {resolve : BasePathSpec → Option FileEntry} {dest : String}
    {spec : BasePathSpec} {vsc_dir : String} {arts : List Artifact} {ev : Event}
    (hev : ev ∈ sysDirEvents resolve dest spec vsc_dir arts) :
    ∃ a ∈ arts, (∃ fe, resolve { spec with location := a.loc } = some fe) ∧
      ev = .exportCall .systemDir a.loc
        (if spec.parent_type_indicator = "VSHADOW" then
          pyJoin (get_output_path dest a.out) vsc_dir
        else get_output_path dest a.out) true := by
  unfold sysDirEvents at hev
  obtain ⟨a, ha, hev⟩ := List.mem_flatMap.mp hev
  refine ⟨a, ha, ?_⟩
  rcases hr : (get_file_entry resolve spec a.loc).1 with _ | fe
  · rw [hr] at hev
    simp at hev
  · rw [hr] at hev
    simp only [] at hev
    refine ⟨⟨fe, hr⟩, ?_⟩
    by_cases hvs : spec.parent_type_indicator = "VSHADOW"
    · rw [if_pos hvs] at hev ⊢
      simpa using hev
    · rw [if_neg hvs] at hev ⊢
      simpa using hev

theorem mem_userFileEvents {resolve : BasePathSpec → Option FileEntry} {dest : String}
    {spec : BasePathSpec} {vsc_dir dir_name user_loc : String} {arts : List Artifact}
    {ev : Event} (hev : ev ∈ userFileEvents resolve dest spec vsc_dir dir_name user_loc arts) :
    ∃ a ∈ arts, (∃ fe, resolve { spec with location := user_loc ++ a.loc } = some fe) ∧
      ev = .exportCall (.user dir_name) (user_loc ++ a.loc)
        (if spec.parent_type_indicator = "VSHADOW" then
          pyJoin (pyJoin (pyJoin (pyJoin (get_output_path dest a.out) vsc_dir) "Users") dir_name)
            (lastComp a.loc)
        else pyJoin (pyJoin (pyJoin (get_output_path dest a.out) "Users") dir_name)
          (lastComp a.loc)) false := by
  unfold userFileEvents at hev
  obtain ⟨a, ha, hev⟩ := List.mem_flatMap.mp hev
  simp only [] at hev
  refine ⟨a, ha, ?_⟩
  rcases hr : (get_file_entry resolve spec (user_loc ++ a.loc)).1 with _ | fe
  · rw [hr] at hev
    simp at hev
  · rw [hr] at hev
    simp only [] at hev
    refine ⟨⟨fe, hr⟩, ?_⟩
    by_cases hvs : spec.parent_type_indicator = "VSHADOW"
    · rw [if_pos hvs] at hev ⊢
      simpa using hev
    · rw [if_neg hvs] at hev ⊢
      simpa using hev

theorem mem_userDirEvents {resolve : BasePathSpec → Option FileEntry} {dest : String}
    {spec : BasePathSpec} {vsc_dir dir_name user_loc : String} {arts : List Artifact}
    {ev : Event} (hev : ev ∈ userDirEvents resolve dest spec vsc_dir dir_name user_loc arts) :
    ∃ a ∈ arts, (∃ fe, resolve { spec with location := user_loc ++ a.loc } = some fe) ∧
      ev = .exportCall (.userDir dir_name) (user_loc ++ a.loc)
        (if spec.parent_type_indicator = "VSHADOW" then
          pyJoin (pyJoin (get_output_path dest a.out) dir_name) vsc_dir
        else pyJoin (get_output_path dest a.out) dir_name) true := by
  unfold userDirEvents at hev
  obtain ⟨a, ha, hev⟩ := List.mem_flatMap.mp hev
  simp only [] at hev
  refine ⟨a, ha, ?_⟩
  rcases hr : (get_file_entry resolve spec (user_loc ++ a.loc)).1 with _ | fe
  · rw [hr] at hev
    simp at hev
  · rw [hr] at hev
    simp only [] at hev
    refine ⟨⟨fe, hr⟩, ?_⟩
    by_cases hvs : spec.parent_type_indicator = "VSHADOW"
    · rw [if_pos hvs] at hev ⊢
      simpa using hev
    · rw [if_neg hvs] at hev ⊢
      simpa using hev

theorem mem_usersEvents {resolve : BasePathSpec → Option FileEntry} {dest : String}
    {spec : BasePathSpec} {vsc_dir : String} {ev : Event}
    (hev : ev ∈ usersEvents resolve dest spec vsc_dir) :
    ∃ users, resolve { spec with location := "/Users" } = some users ∧
      ∃ u ∈ users.subs, u.stat.ftype = FILE_ENTRY_TYPE_DIRECTORY ∧
        lastComp u.location ∉ EXCLUDED_PROFILES ∧
        (ev ∈ userFileEvents resolve dest spec vsc_dir (lastComp u.location) u.location
            USER_ARTIFACTS ∨
         ev ∈ userDirEvents resolve dest spec vsc_dir (lastComp u.location) u.location
            USER_ARTIFACTS_DIR) := by
  unfold usersEvents at hev
  rcases hr : (get_file_entry resolve spec "/Users").1 with _ | users
  · rw [hr] at hev
    simp at hev
  · rw [hr] at hev
    obtain ⟨u, hu, hev⟩ := List.mem_flatMap.mp hev
    refine ⟨users, hr, u, hu, ?_⟩
    by_cases hd : u.stat.ftype = FILE_ENTRY_TYPE_DIRECTORY
    · rw [if_pos hd] at hev
      simp only [] at hev
      by_cases hex : lastComp u.location ∈ EXCLUDED_PROFILES
      · rw [if_pos hex] at hev
        simp at hev
      · rw [if_neg hex] at hev
        exact ⟨hd, hex, List.mem_append.mp hev⟩
    · rw [if_neg hd] at hev
      simp at hev

theorem mem_processSpec {resolve : BasePathSpec → Option FileEntry} {vssCtimes : Nat → String}
    {dest : String} {spec : BasePathSpec} {ev : Event}
    (hev : ev ∈ processSpec resolve vssCtimes dest spec) :
    (resolve spec = none ∧ ev = .warnBase spec) ∨
    ((∃ fe, resolve spec = some fe) ∧
      (ev ∈ sysFileEvents resolve dest spec
          (if spec.parent_type_indicator = "VSHADOW" then vscDirOf vssCtimes spec else "")
          SYSTEM_ARTIFACTS ∨
       ev ∈ sysDirEvents resolve dest spec
          (if spec.parent_type_indicator = "VSHADOW" then vscDirOf vssCtimes spec else "")
          SYSTEM_ARTIFACTS_DIR ∨
       ev ∈ usersEvents resolve dest spec
          (if spec.parent_type_indicator = "VSHADOW" then vscDirOf vssCtimes spec else ""))) := by
  unfold processSpec at hev
  rcases hr : resolve spec with _ | fe
  · rw [hr] at hev
    simp only [List.mem_singleton] at hev
    exact Or.inl ⟨rfl, hev⟩
  · rw [hr] at hev
    simp only [] at hev
    rcases List.mem_append.mp hev with h1 | h1
    · rcases List.mem_append.mp h1 with h2 | h2
      · exact Or.inr ⟨⟨fe, rfl⟩, Or.inl h2⟩
      · exact Or.inr ⟨⟨fe, rfl⟩, Or.inr (Or.inl h2)⟩
    · exact Or.inr ⟨⟨fe, rfl⟩, Or.inr (Or.inr h1)⟩

/-! ### C3: unreachable artifacts are skipped (silently) -/

/-- C3 (amended): for every artifact whose source file entry cannot be opened
(the resolver returns no entry for the artifact's location),
`extract_artifacts` skips that artifact — the loop behaves exactly as if the
artifact were absent from the catalogue — and continues with the remaining
artifacts of the same base path specification, but emits NO log warning for
it: the only log warning `extract_artifacts` ever emits is for a base path
specification that itself cannot be opened. -/
theorem unresolvable_artifact_skipped_silently
    (resolve : BasePathSpec → Option FileEntry) (vssCtimes : Nat → String)
    (dest : String) (spec : BasePathSpec) (vsc_dir : String)
    (l₁ l₂ : List Artifact) (a : Artifact)
    (ha : resolve { spec with location := a.loc } = none) :
    sysFileEvents resolve dest spec vsc_dir (l₁ ++ a :: l₂) =
      sysFileEvents resolve dest spec vsc_dir (l₁ ++ l₂) ∧
    (∀ ev ∈ processSpec resolve vssCtimes dest spec,
      Event.isWarn ev = true → ev = .warnBase spec ∧ resolve spec = none) := by
  constructor
  · unfold sysFileEvents
    rw [List.flatMap_append, List.flatMap_append, List.flatMap_cons]
    congr 1
    simp only []
    rw [show (get_file_entry resolve spec a.loc).1 = none from ha]
    rfl
  · intro ev hev hw
    rcases mem_processSpec hev with ⟨hn, rfl⟩ | ⟨⟨fe, hfe⟩, hcase⟩
    · exact ⟨rfl, hn⟩
    · exfalso
      rcases hcase with h1 | h1 | h1
      · obtain ⟨a', _, _, rfl⟩ := mem_sysFileEvents h1
        simp [Event.isWarn] at hw
      · obtain ⟨a', _, _, rfl⟩ := mem_sysDirEvents h1
        simp [Event.isWarn] at hw
      · obtain ⟨users, _, u, _, _, _, h2⟩ := mem_usersEvents h1
        rcases h2 with h3 | h3
        · obtain ⟨a', _, _, rfl⟩ := mem_userFileEvents h3
          simp [Event.isWarn] at hw
        · obtain ⟨a', _, _, rfl⟩ := mem_userDirEvents h3
          simp [Event.isWarn] at hw

/-- C3 counterexample: a volume on which the SECURITY hive is unreachable
while the root and the SOFTWARE hive resolve. The claim asserts a log warning
for the skipped artifact; the actual trace is a single `export_file` call for
SOFTWARE — the later artifact is still processed, but no warning of any kind
is emitted. -/
theorem skipped_artifact_logs_no_warning :
    (Option.isNone ((fun s : BasePathSpec =>
        if s.location = "/" then
          some (FileEntry.mk "" "/" ⟨none, none, none, none, none, none, 2⟩ [] [])
        else if s.location = "/Windows/System32/config/SOFTWARE" then
          some (FileEntry.mk "SOFTWARE" "/Windows/System32/config/SOFTWARE"
            ⟨none, none, none, none, none, none, 3⟩ [5] [])
        else none) ⟨"/Windows/System32/config/SECURITY", "TSK", 0⟩) = true) ∧
    processSpec
      (fun s : BasePathSpec =>
        if s.location = "/" then
          some (FileEntry.mk "" "/" ⟨none, none, none, none, none, none, 2⟩ [] [])
        else if s.location = "/Windows/System32/config/SOFTWARE" then
          some (FileEntry.mk "SOFTWARE" "/Windows/System32/config/SOFTWARE"
            ⟨none, none, none, none, none, none, 3⟩ [5] [])
        else none)
      (fun _ => "CT") "/out" ⟨"/", "TSK", 0⟩ =
      [Event.exportCall .system "/Windows/System32/config/SOFTWARE"
        "/out/Registry/SOFTWARE" false] :=
  ⟨by decide, by decide⟩

/-- Witness for C3 (amended) at a concrete input. -/
theorem unresolvable_artifact_skipped_silently_witness :
    ((fun _ : BasePathSpec => (none : Option FileEntry))
        { (⟨"/", "TSK", 0⟩ : BasePathSpec) with location := "/a" } = none) ∧
    (sysFileEvents (fun _ => none) "/out" ⟨"/", "TSK", 0⟩ ""
        ([] ++ (⟨"/a", "/Registry/"⟩ : Artifact) :: []) =
      sysFileEvents (fun _ => none) "/out" ⟨"/", "TSK", 0⟩ "" ([] ++ []) ∧
    (∀ ev ∈ processSpec (fun _ => none) (fun _ => "CT") "/out" ⟨"/", "TSK", 0⟩,
      Event.isWarn ev = true →
        ev = .warnBase ⟨"/", "TSK", 0⟩ ∧
        (fun _ : BasePathSpec => (none : Option FileEntry)) ⟨"/", "TSK", 0⟩ = none)) :=
  ⟨rfl, unresolvable_artifact_skipped_silently (fun _ => none) (fun _ => "CT") "/out"
    ⟨"/", "TSK", 0⟩ "" [] [] ⟨"/a", "/Registry/"⟩ rfl⟩

/-! ### C6: output layout -/

theorem out_last_slash (dest cat : String) (hc : cat.data.getLast? = some '/')
    (hcne : cat.data ≠ []) : (dest ++ cat).data.getLast? = some '/' := by
  rw [getLast?_append_piece dest cat hcne]
  exact hc

/-- C6: for every extracted artifact, the copy is placed under the
destination directory in the artifact's catalogue category subtree
(`/Registry/`, `/OSLogs/`, `/MRU/...`), and when the base path specification
is a shadow copy, an extra path component is inserted whose name is the
snapshot's creation timestamp with `:` removed and spaces replaced by `@`
(for a nonempty destination not ending in the separator and a nonempty,
separator-free timestamp folder name). -/
theorem output_layout (resolve : BasePathSpec → Option FileEntry)
    (vssCtimes : Nat → String) (dest : String) (spec : BasePathSpec)
    (hne : dest.data ≠ []) (hsl : dest.data.getLast? ≠ some '/')
    (hvslash : '/' ∉ (vscDirOf vssCtimes spec).data)
    (hvne : (vscDirOf vssCtimes spec).data ≠ []) :
    ∀ src loc path rec,
      Event.exportCall src loc path rec ∈ processSpec resolve vssCtimes dest spec →
      ∃ cat ∈ ALL_CATEGORIES, ∃ tail : String, path = dest ++ cat ++ tail ∧
        (spec.parent_type_indicator = "VSHADOW" →
          vscDirOf vssCtimes spec ∈ pySplit tail '/') := by
  have hvhead : (vscDirOf vssCtimes spec).data.head? ≠ some '/' :=
    head?_ne_slash_of_no_slash hvslash
  have hvlast : (vscDirOf vssCtimes spec).data.getLast? ≠ some '/' :=
    getLast?_ne_slash_of_no_slash hvslash
  have hcatL : ∀ c ∈ ALL_CATEGORIES, c.data.getLast? = some '/' ∧ c.data ≠ [] := by decide
  have hsysout : ∀ a ∈ SYSTEM_ARTIFACTS, a.out ∈ ALL_CATEGORIES := by decide
  have hsysdout : ∀ a ∈ SYSTEM_ARTIFACTS_DIR, a.out ∈ ALL_CATEGORIES := by decide
  have huout : ∀ a ∈ USER_ARTIFACTS, a.out ∈ ALL_CATEGORIES := by decide
  have hudout : ∀ a ∈ USER_ARTIFACTS_DIR, a.out ∈ ALL_CATEGORIES := by decide
  have hsysname : ∀ a ∈ SYSTEM_ARTIFACTS, (lastComp a.loc).data.head? ≠ some '/' := by decide
  have huname : ∀ a ∈ USER_ARTIFACTS, (lastComp a.loc).data.head? ≠ some '/' := by decide
  intro src loc path rec hev
  rcases mem_processSpec hev with ⟨_, habs⟩ | ⟨_, hcase⟩
  · exact (Event.noConfusion habs)
  · rcases hcase with h1 | h1 | h1
    · -- _SYSTEM_ARTIFACTS loop
      obtain ⟨a, ha, _, heq⟩ := mem_sysFileEvents h1
      simp only [Event.exportCall.injEq] at heq
      obtain ⟨_, _, hpath, _⟩ := heq
      refine ⟨a.out, hsysout a ha, ?_⟩
      have hcs := hcatL a.out (hsysout a ha)
      have hout := get_output_path_cat dest hne hsl a.out (hsysout a ha)
      by_cases hvs : spec.parent_type_indicator = "VSHADOW"
      · simp only [if_pos hvs] at hpath
        rw [hout] at hpath
        rw [pyJoin_slash_end (dest ++ a.out) (vscDirOf vssCtimes spec)
          (out_last_slash dest a.out hcs.1 hcs.2) hvhead] at hpath
        rw [pyJoin_plain (dest ++ a.out ++ vscDirOf vssCtimes spec) (lastComp a.loc)
          (by simp [data_append, hvne])
          (by rw [getLast?_append_piece _ _ hvne]; exact hvlast)
          (hsysname a ha)] at hpath
        refine ⟨vscDirOf vssCtimes spec ++ "/" ++ lastComp a.loc, ?_, fun _ =>
          vsc_mem_components _ _ hvslash⟩
        rw [hpath]
        apply str_ext
        simp [data_append]
      · simp only [if_neg hvs] at hpath
        rw [hout] at hpath
        rw [pyJoin_slash_end (dest ++ a.out) (lastComp a.loc)
          (out_last_slash dest a.out hcs.1 hcs.2) (hsysname a ha)] at hpath
        refine ⟨lastComp a.loc, ?_, fun hv => absurd hv hvs⟩
        rw [hpath]
    · -- _SYSTEM_ARTIFACTS_DIR loop
      obtain ⟨a, ha, _, heq⟩ := mem_sysDirEvents h1
      simp only [Event.exportCall.injEq] at heq
      obtain ⟨_, _, hpath, _⟩ := heq
      refine ⟨a.out, hsysdout a ha, ?_⟩
      have hcs := hcatL a.out (hsysdout a ha)
      have hout := get_output_path_cat dest hne hsl a.out (hsysdout a ha)
      by_cases hvs : spec.parent_type_indicator = "VSHADOW"
      · simp only [if_pos hvs] at hpath
        rw [hout] at hpath
        rw [pyJoin_slash_end (dest ++ a.out) (vscDirOf vssCtimes spec)
          (out_last_slash dest a.out hcs.1 hcs.2) hvhead] at hpath
        refine ⟨vscDirOf vssCtimes spec, ?_, fun _ => self_mem_components _ hvslash⟩
        rw [hpath]
      · simp only [if_neg hvs] at hpath
        rw [hout] at hpath
        refine ⟨"", ?_, fun hv => absurd hv hvs⟩
        rw [hpath]
        apply str_ext
        simp [data_append]
    · -- the user-profile loops
      obtain ⟨users, _, u, _, _, _, h2⟩ := mem_usersEvents h1
      have hdn : (lastComp u.location).data.head? ≠ some '/' :=
        head?_ne_slash_of_no_slash (lastComp_no_slash u.location)
      rcases h2 with h3 | h3
      · -- _USER_ARTIFACTS
        obtain ⟨a, ha, _, heq⟩ := mem_userFileEvents h3
        simp only [Event.exportCall.injEq] at heq
        obtain ⟨_, _, hpath, _⟩ := heq
        refine ⟨a.out, huout a ha, ?_⟩
        have hcs := hcatL a.out (huout a ha)
        have hout := get_output_path_cat dest hne hsl a.out (huout a ha)
        by_cases hvs : spec.parent_type_indicator = "VSHADOW"
        · simp only [if_pos hvs] at hpath
          rw [hout] at hpath
          rw [pyJoin_slash_end (dest ++ a.out) (vscDirOf vssCtimes spec)
            (out_last_slash dest a.out hcs.1 hcs.2) hvhead] at hpath
          rw [pyJoin_plain (dest ++ a.out ++ vscDirOf vssCtimes spec) "Users"
            (by simp [data_append, hvne])
            (by rw [getLast?_append_piece _ _ hvne]; exact hvlast)
            (by decide)] at hpath
          obtain ⟨t3, ht3⟩ := pyJoin_extends
            (dest ++ a.out ++ vscDirOf vssCtimes spec ++ "/" ++ "Users")
            (lastComp u.location) hdn
          rw [ht3] at hpath
          obtain ⟨t4, ht4⟩ := pyJoin_extends
            (dest ++ a.out ++ vscDirOf vssCtimes spec ++ "/" ++ "Users" ++ t3)
            (lastComp a.loc) (huname a ha)
          rw [ht4] at hpath
          refine ⟨vscDirOf vssCtimes spec ++ "/" ++ ("Users" ++ t3 ++ t4), ?_, fun _ =>
            vsc_mem_components _ _ hvslash⟩
          rw [hpath]
          apply str_ext
          simp [data_append]
        · simp only [if_neg hvs] at hpath
          rw [hout] at hpath
          rw [pyJoin_slash_end (dest ++ a.out) "Users"
            (out_last_slash dest a.out hcs.1 hcs.2) (by decide)] at hpath
          obtain ⟨t3, ht3⟩ := pyJoin_extends (dest ++ a.out ++ "Users")
            (lastComp u.location) hdn
          rw [ht3] at hpath
          obtain ⟨t4, ht4⟩ := pyJoin_extends (dest ++ a.out ++ "Users" ++ t3)
            (lastComp a.loc) (huname a ha)
          rw [ht4] at hpath
          refine ⟨"Users" ++ t3 ++ t4, ?_, fun hv => absurd hv hvs⟩
          rw [hpath]
          apply str_ext
          simp [data_append]
      · -- _USER_ARTIFACTS_DIR
        obtain ⟨a, ha, _, heq⟩ := mem_userDirEvents h3
        simp only [Event.exportCall.injEq] at heq
        obtain ⟨_, _, hpath, _⟩ := heq
        refine ⟨a.out, hudout a ha, ?_⟩
        have hcs := hcatL a.out (hudout a ha)
        have hout := get_output_path_cat dest hne hsl a.out (hudout a ha)
        by_cases hvs : spec.parent_type_indicator = "VSHADOW"
        · simp only [if_pos hvs] at hpath
          rw [hout] at hpath
          rw [pyJoin_slash_end (dest ++ a.out) (lastComp u.location)
            (out_last_slash dest a.out hcs.1 hcs.2) hdn] at hpath
          by_cases hdne : (lastComp u.location).data = []
          · rw [pyJoin_slash_end (dest ++ a.out ++ lastComp u.location)
              (vscDirOf vssCtimes spec)
              (by rw [data_append, hdne, List.append_nil]
                  exact out_last_slash dest a.out hcs.1 hcs.2) hvhead] at hpath
            refine ⟨lastComp u.location ++ vscDirOf vssCtimes spec, ?_, fun _ => ?_⟩
            · rw [hpath]
              apply str_ext
              simp [data_append]
            · unfold pySplit
              rw [show (lastComp u.location ++ vscDirOf vssCtimes spec).data =
                (vscDirOf vssCtimes spec).data from by rw [data_append, hdne]; rfl]
              rw [splitOnChar_single '/' _ hvslash]
              simp [mk_data]
          · rw [pyJoin_plain (dest ++ a.out ++ lastComp u.location)
              (vscDirOf vssCtimes spec) (by simp [data_append, hdne])
              (by rw [getLast?_append_piece _ _ hdne]
                  exact getLast?_ne_slash_of_no_slash (lastComp_no_slash u.location))
              hvhead] at hpath
            refine ⟨lastComp u.location ++ "/" ++ vscDirOf vssCtimes spec, ?_, fun _ =>
              vsc_mem_components_snd _ _ (lastComp_no_slash u.location) hvslash⟩
            rw [hpath]
            apply str_ext
            simp [data_append]
        · simp only [if_neg hvs] at hpath
          rw [hout] at hpath
          rw [pyJoin_slash_end (dest ++ a.out) (lastComp u.location)
            (out_last_slash dest a.out hcs.1 hcs.2) hdn] at hpath
          refine ⟨lastComp u.location, ?_, fun hv => absurd hv hvs⟩
          rw [hpath]

/-- Witness for C6 at a concrete input: a shadow-copy volume carrying the
SOFTWARE hive and one user profile, extracted into `/out` with snapshot
timestamp `CT 1:2` (subfolder name `CT@12`). -/
theorem output_layout_witness :
    (("/out" : String).data ≠ [] ∧ ("/out" : String).data.getLast? ≠ some '/' ∧
     '/' ∉ (vscDirOf (fun _ => "CT 1:2") ⟨"/", "VSHADOW", 0⟩).data ∧
     (vscDirOf (fun _ => "CT 1:2") ⟨"/", "VSHADOW", 0⟩).data ≠ []) ∧
    (∀ src loc path rec,
      Event.exportCall src loc path rec ∈ processSpec
        (fun s : BasePathSpec =>
          if s.location = "/" then
            some (FileEntry.mk "" "/" ⟨none, none, none, none, none, none, 2⟩ [] [])
          else if s.location = "/Windows/System32/config/SOFTWARE" then
            some (FileEntry.mk "SOFTWARE" "/Windows/System32/config/SOFTWARE"
              ⟨none, none, none, none, none, none, 3⟩ [5] [])
          else none)
        (fun _ => "CT 1:2") "/out" ⟨"/", "VSHADOW", 0⟩ →
      ∃ cat ∈ ALL_CATEGORIES, ∃ tail : String, path = "/out" ++ cat ++ tail ∧
        ((⟨"/", "VSHADOW", 0⟩ : BasePathSpec).parent_type_indicator = "VSHADOW" →
          vscDirOf (fun _ => "CT 1:2") ⟨"/", "VSHADOW", 0⟩ ∈ pySplit tail '/')) :=
  ⟨⟨by decide, by decide, by decide, by decide⟩,
   output_layout
     (fun s : BasePathSpec =>
       if s.location = "/" then
         some (FileEntry.mk "" "/" ⟨none, none, none, none, none, none, 2⟩ [] [])
       else if s.location = "/Windows/System32/config/SOFTWARE" then
         some (FileEntry.mk "SOFTWARE" "/Windows/System32/config/SOFTWARE"
           ⟨none, none, none, none, none, none, 3⟩ [5] [])
       else none)
     (fun _ => "CT 1:2") "/out" ⟨"/", "VSHADOW", 0⟩
     (by decide) (by decide) (by decide) (by decide)⟩

/-! ### C10: the user-profile filter -/

/-- C10: user artifacts (NTUSER.DAT, UsrClass.dat, Recent items, WebCache)
are extracted only for sub-entries of `/Users` that are directories and whose
folder name is not one of `All Users`, `Default`, `Default User`,
`Default.migrated`, `Public`: every user-artifact export call comes from such
a profile folder and targets a location inside it; and when `/Users` cannot
be opened, no user artifact is extracted for that base path specification. -/
theorem user_profile_filter (resolve : BasePathSpec → Option FileEntry)
    (vssCtimes : Nat → String) (dest : String) (spec : BasePathSpec) :
    (∀ d loc path rec,
      (Event.exportCall (.user d) loc path rec ∈ processSpec resolve vssCtimes dest spec ∨
       Event.exportCall (.userDir d) loc path rec ∈ processSpec resolve vssCtimes dest spec) →
      ∃ users, resolve { spec with location := "/Users" } = some users ∧
        ∃ u ∈ users.subs, u.stat.ftype = FILE_ENTRY_TYPE_DIRECTORY ∧
          lastComp u.location = d ∧ d ∉ EXCLUDED_PROFILES ∧
          ∃ a ∈ USER_ARTIFACTS ++ USER_ARTIFACTS_DIR, loc = u.location ++ a.loc) ∧
    (resolve { spec with location := "/Users" } = none →
      ∀ ev ∈ processSpec resolve vssCtimes dest spec, ∀ d loc path rec,
        ev ≠ Event.exportCall (.user d) loc path rec ∧
        ev ≠ Event.exportCall (.userDir d) loc path rec) := by
  constructor
  · intro d loc path rec hev
    rcases hev with hev | hev
    · rcases mem_processSpec hev with ⟨_, habs⟩ | ⟨_, hcase⟩
      · exact (Event.noConfusion habs)
      · rcases hcase with h1 | h1 | h1
        · obtain ⟨a, _, _, heq⟩ := mem_sysFileEvents h1
          simp only [Event.exportCall.injEq] at heq
          exact (Source.noConfusion heq.1)
        · obtain ⟨a, _, _, heq⟩ := mem_sysDirEvents h1
          simp only [Event.exportCall.injEq] at heq
          exact (Source.noConfusion heq.1)
        · obtain ⟨users, hus, u, hu, hdir, hnex, h2⟩ := mem_usersEvents h1
          rcases h2 with h3 | h3
          · obtain ⟨a, ha, _, heq⟩ := mem_userFileEvents h3
            simp only [Event.exportCall.injEq, Source.user.injEq] at heq
            obtain ⟨hsrc, hloc, _, _⟩ := heq
            refine ⟨users, hus, u, hu, hdir, hsrc.symm, ?_, a,
              List.mem_append_left _ ha, hloc⟩
            rw [hsrc]
            exact hnex
          · obtain ⟨a, _, _, heq⟩ := mem_userDirEvents h3
            simp only [Event.exportCall.injEq] at heq
            exact (Source.noConfusion heq.1)
    · rcases mem_processSpec hev with ⟨_, habs⟩ | ⟨_, hcase⟩
      · exact (Event.noConfusion habs)
      · rcases hcase with h1 | h1 | h1
        · obtain ⟨a, _, _, heq⟩ := mem_sysFileEvents h1
          simp only [Event.exportCall.injEq] at heq
          exact (Source.noConfusion heq.1)
        · obtain ⟨a, _, _, heq⟩ := mem_sysDirEvents h1
          simp only [Event.exportCall.injEq] at heq
          exact (Source.noConfusion heq.1)
        · obtain ⟨users, hus, u, hu, hdir, hnex, h2⟩ := mem_usersEvents h1
          rcases h2 with h3 | h3
          · obtain ⟨a, _, _, heq⟩ := mem_userFileEvents h3
            simp only [Event.exportCall.injEq] at heq
            exact (Source.noConfusion heq.1)
          · obtain ⟨a, ha, _, heq⟩ := mem_userDirEvents h3
            simp only [Event.exportCall.injEq, Source.userDir.injEq] at heq
            obtain ⟨hsrc, hloc, _, _⟩ := heq
            refine ⟨users, hus, u, hu, hdir, hsrc.symm, ?_, a,
              List.mem_append_right _ ha, hloc⟩
            rw [hsrc]
            exact hnex
  · intro hnone ev hev d loc path rec
    constructor
    · intro habs
      subst habs
      rcases mem_processSpec hev with ⟨_, habs2⟩ | ⟨_, hcase⟩
      · exact (Event.noConfusion habs2)
      · rcases hcase with h1 | h1 | h1
        · obtain ⟨a, _, _, heq⟩ := mem_sysFileEvents h1
          simp only [Event.exportCall.injEq] at heq
          exact (Source.noConfusion heq.1)
        · obtain ⟨a, _, _, heq⟩ := mem_sysDirEvents h1
          simp only [Event.exportCall.injEq] at heq
          exact (Source.noConfusion heq.1)
        · obtain ⟨users, hus, _⟩ := mem_usersEvents h1
          rw [hnone] at hus
          exact (Option.noConfusion hus)
    · intro habs
      subst habs
      rcases mem_processSpec hev with ⟨_, habs2⟩ | ⟨_, hcase⟩
      · exact (Event.noConfusion habs2)
      · rcases hcase with h1 | h1 | h1
        · obtain ⟨a, _, _, heq⟩ := mem_sysFileEvents h1
          simp only [Event.exportCall.injEq] at heq
          exact (Source.noConfusion heq.1)
        · obtain ⟨a, _, _, heq⟩ := mem_sysDirEvents h1
          simp only [Event.exportCall.injEq] at heq
          exact (Source.noConfusion heq.1)
        · obtain ⟨users, hus, _⟩ := mem_usersEvents h1
          rw [hnone] at hus
          exact (Option.noConfusion hus)

/-- Witness for C10 at a concrete input: on a volume whose `/Users` holds a
`Bob` directory, a `Public` directory and a stray file, the one user-artifact
export call is traced back to the `Bob` profile directory. -/
theorem user_profile_filter_witness :
    ∃ users,
      (fun s : BasePathSpec =>
        if s.location = "/" then
          some (FileEntry.mk "" "/" ⟨none, none, none, none, none, none, 2⟩ [] [])
        else if s.location = "/Users" then
          some (FileEntry.mk "Users" "/Users" ⟨none, none, none, none, none, none, 2⟩ []
            [FileEntry.mk "Bob" "/Users/Bob" ⟨none, none, none, none, none, none, 2⟩ [] [],
             FileEntry.mk "Public" "/Users/Public" ⟨none, none, none, none, none, none, 2⟩ [] [],
             FileEntry.mk "stray" "/Users/stray" ⟨none, none, none, none, none, none, 3⟩ [] []])
        else if s.location = "/Users/Bob/NTUSER.DAT" then
          some (FileEntry.mk "NTUSER.DAT" "/Users/Bob/NTUSER.DAT"
            ⟨none, none, none, none, none, none, 3⟩ [7] [])
        else none)
        { (⟨"/", "TSK", 0⟩ : BasePathSpec) with location := "/Users" } = some users ∧
      ∃ u ∈ users.subs, u.stat.ftype = FILE_ENTRY_TYPE_DIRECTORY ∧
        lastComp u.location = "Bob" ∧ "Bob" ∉ EXCLUDED_PROFILES ∧
        ∃ a ∈ USER_ARTIFACTS ++ USER_ARTIFACTS_DIR,
          "/Users/Bob/NTUSER.DAT" = u.location ++ a.loc :=
  (user_profile_filter
    (fun s : BasePathSpec =>
      if s.location = "/" then
        some (FileEntry.mk "" "/" ⟨none, none, none, none, none, none, 2⟩ [] [])
      else if s.location = "/Users" then
        some (FileEntry.mk "Users" "/Users" ⟨none, none, none, none, none, none, 2⟩ []
          [FileEntry.mk "Bob" "/Users/Bob" ⟨none, none, none, none, none, none, 2⟩ [] [],
           FileEntry.mk "Public" "/Users/Public" ⟨none, none, none, none, none, none, 2⟩ [] [],
           FileEntry.mk "stray" "/Users/stray" ⟨none, none, none, none, none, none, 3⟩ [] []])
      else if s.location = "/Users/Bob/NTUSER.DAT" then
        some (FileEntry.mk "NTUSER.DAT" "/Users/Bob/NTUSER.DAT"
          ⟨none, none, none, none, none, none, 3⟩ [7] [])
      else none)
    (fun _ => "CT") "/out" ⟨"/", "TSK", 0⟩).1 "Bob" "/Users/Bob/NTUSER.DAT"
    "/out/Registry/Users/Bob/NTUSER.DAT" false (Or.inl (by decide))

end ArtifactExtractor
